import Mathlib

/-!
Verification development for the solana-mev-test repository.

This file gives a shallow embedding of the repository's pure decision and
decoding logic and proves the spec's testable properties against it:

* `src/ex/raydium.rs`  — the AMM instruction decoder family (`AmmInstruction`
  and the fifteen per-opcode `TryFrom` decoders, plus the unreachable
  `MigrateToOpenBook` decoder);
* `src/ex/pumpfun.rs`  — the launch-program event decoder family
  (`TargetEvent`, `CreateEvent`, `CompleteEvent`, `TradeEvent`);
* `src/engine.rs`      — the `allow_sniper` decision over a transaction's
  inner instructions;
* `src/jito.rs`        — the two-phase bundle-status polling state machine
  (`jito_request`, `check_final_bundle_status`, `get_bundle_status`,
  `check_transaction_error`), with the relay modelled as a scripted
  sequence of responses;
* `src/utils.rs` and `src/constants.rs` — keypair path resolution.

Instruction data arrives as base58 text; `bs58Decode` models the bs58
crate's decoder (alphabet check, big-integer base conversion, one leading
zero byte per leading '1').  Borsh deserialization is modelled by
consuming readers `BR α : List Nat → Option (α × List Nat)` over byte
lists; `try_from_slice` is a reader run that must consume the whole
buffer.  Machine integers are modelled as `Nat` (an `i64` by its 64-bit
little-endian bit pattern).  A Rust panic (`unwrap` on invalid base58 in
pumpfun.rs) is modelled as `none` in an outer `Option` layer.
-/

namespace SolanaMev

/-! ## Base58 decoding (the bs58 crate, as used by both decoder families) -/

def b58Alphabet : List Char :=
  "123456789ABCDEFGHJKLMNPQRSTUVWXYZabcdefghijkmnopqrstuvwxyz".toList

def b58Val (c : Char) : Option Nat :=
  List.findIdx? (fun a => a = c) b58Alphabet

def natFromB58 (vs : List Nat) : Nat :=
  vs.foldl (fun acc v => acc * 58 + v) 0

def beBytesAux : Nat → Nat → List Nat
  | 0, _ => []
  | f + 1, n => if n = 0 then [] else beBytesAux f (n / 256) ++ [n % 256]

/-- Big-endian base-256 digits of a natural number, without leading zeros. -/
def beBytes (n : Nat) : List Nat := beBytesAux n n

def leadOnes (cs : List Char) : Nat := (cs.takeWhile (fun c => c = '1')).length

/-- Decode base58 text to bytes: every character must be in the alphabet
(otherwise the bs58 crate returns an error, modelled as `none`); leading
'1' characters become leading zero bytes. -/
def bs58Decode (s : String) : Option (List Nat) :=
  (s.toList.mapM b58Val).map
    (fun vs => List.replicate (leadOnes s.toList) 0 ++ beBytes (natFromB58 vs))

/-! ## Little-endian fixed-width integers (borsh) -/

def leBytes : Nat → Nat → List Nat
  | 0, _ => []
  | n + 1, v => v % 256 :: leBytes n (v / 256)

def fromLE : List Nat → Nat
  | [] => 0
  | b :: bs => b + 256 * fromLE bs

theorem leBytes_length (n v : Nat) : (leBytes n v).length = n := by
  induction n generalizing v with
  | zero => rfl
  | succ n ih => simp [leBytes, ih]

theorem fromLE_leBytes (n v : Nat) (h : v < 256 ^ n) : fromLE (leBytes n v) = v := by
  induction n generalizing v with
  | zero =>
    simp [leBytes, fromLE]
    omega
  | succ n ih =>
    have hd : v / 256 < 256 ^ n := by
      rw [Nat.div_lt_iff_lt_mul (by omega)]
      calc v < 256 ^ (n + 1) := h
        _ = 256 ^ n * 256 := by ring
    simp [leBytes, fromLE, ih (v / 256) hd]
    omega

/-! ## Borsh readers: a consuming reader over a byte list -/

def BR (α : Type) : Type := List Nat → Option (α × List Nat)

def brPure {α : Type} (a : α) : BR α := fun xs => some (a, xs)

def brFail {α : Type} : BR α := fun _ => none

def brBind {α β : Type} (p : BR α) (f : α → BR β) : BR β := fun xs =>
  match p xs with
  | none => none
  | some (a, r) => f a r

def brByte : BR Nat := fun xs =>
  match xs with
  | [] => none
  | b :: r => some (b, r)

def brTake (n : Nat) : BR (List Nat) := fun xs =>
  if n ≤ xs.length then some (xs.take n, xs.drop n) else none

/-- Fixed-width little-endian unsigned integer of `n` bytes (borsh `u8`,
`u16`, `u64` are `n` = 1, 2, 8; an `i64` is read as its 64-bit pattern). -/
def brUInt (n : Nat) : BR Nat :=
  brBind (brTake n) (fun bs => brPure (fromLE bs))

/-- Borsh `bool`: one byte that must be exactly 0 or 1. -/
def brBool : BR Bool :=
  brBind brByte (fun b =>
    if b = 0 then brPure false
    else if b = 1 then brPure true
    else brFail)

/-- Borsh `Option<T>`: presence byte 0 or 1 followed by the value. -/
def brOption {α : Type} (p : BR α) : BR (Option α) :=
  brBind brByte (fun b =>
    if b = 0 then brPure none
    else if b = 1 then brBind p (fun a => brPure (some a))
    else brFail)

/-- A UTF-8 continuation byte (0x80..0xBF). -/
def utf8Cont (b : Nat) : Bool := decide (0x80 ≤ b) && decide (b ≤ 0xBF)

/-- Validity of a byte list as UTF-8, as `String::from_utf8` checks it
(RFC 3629: no overlong forms, no surrogates, at most U+10FFFF) — borsh's
`String` deserializer rejects invalid UTF-8. -/
def utf8Valid : List Nat → Bool
  | [] => true
  | b :: rest =>
    if b < 0x80 then utf8Valid rest
    else if 0xC2 ≤ b ∧ b ≤ 0xDF then
      match rest with
      | b1 :: r => utf8Cont b1 && utf8Valid r
      | [] => false
    else if b = 0xE0 then
      match rest with
      | b1 :: b2 :: r =>
        (decide (0xA0 ≤ b1) && decide (b1 ≤ 0xBF)) && utf8Cont b2 && utf8Valid r
      | _ => false
    else if 0xE1 ≤ b ∧ b ≤ 0xEC then
      match rest with
      | b1 :: b2 :: r => utf8Cont b1 && utf8Cont b2 && utf8Valid r
      | _ => false
    else if b = 0xED then
      match rest with
      | b1 :: b2 :: r =>
        (decide (0x80 ≤ b1) && decide (b1 ≤ 0x9F)) && utf8Cont b2 && utf8Valid r
      | _ => false
    else if 0xEE ≤ b ∧ b ≤ 0xEF then
      match rest with
      | b1 :: b2 :: r => utf8Cont b1 && utf8Cont b2 && utf8Valid r
      | _ => false
    else if b = 0xF0 then
      match rest with
      | b1 :: b2 :: b3 :: r =>
        (decide (0x90 ≤ b1) && decide (b1 ≤ 0xBF)) && utf8Cont b2 && utf8Cont b3 &&
          utf8Valid r
      | _ => false
    else if 0xF1 ≤ b ∧ b ≤ 0xF3 then
      match rest with
      | b1 :: b2 :: b3 :: r => utf8Cont b1 && utf8Cont b2 && utf8Cont b3 && utf8Valid r
      | _ => false
    else if b = 0xF4 then
      match rest with
      | b1 :: b2 :: b3 :: r =>
        (decide (0x80 ≤ b1) && decide (b1 ≤ 0x8F)) && utf8Cont b2 && utf8Cont b3 &&
          utf8Valid r
      | _ => false
    else false

/-- Borsh `String`, kept as its raw byte list: u32 length prefix, then the
bytes, which must be valid UTF-8 (the `String::from_utf8` inside borsh's
deserializer fails otherwise). -/
def brString : BR (List Nat) :=
  brBind (brUInt 4) (fun n => brBind (brTake n) (fun bs =>
    if utf8Valid bs then brPure bs else brFail))

/-- A 32-byte public key, kept as its byte list. -/
def brPubkey : BR (List Nat) := brTake 32

/-! ### Serializers (canonical encodings used to state round-trip claims) -/

def serOption {α : Type} (f : α → List Nat) : Option α → List Nat
  | none => [0]
  | some a => 1 :: f a

def serBool (b : Bool) : List Nat := [if b then 1 else 0]

def serBytesLP (s : List Nat) : List Nat := leBytes 4 s.length ++ s

/-! ### Extension: a successful read is unaffected by appending input -/

def BrExt {α : Type} (p : BR α) : Prop :=
  ∀ xs ys v r, p xs = some (v, r) → p (xs ++ ys) = some (v, r ++ ys)

theorem brExt_pure {α : Type} (a : α) : BrExt (brPure a) := by
  intro xs ys v r h
  simp [brPure] at h ⊢
  simp [h.1, h.2]

theorem brExt_fail {α : Type} : BrExt (brFail : BR α) := by
  intro xs ys v r h
  simp [brFail] at h

theorem brExt_bind {α β : Type} {p : BR α} {f : α → BR β}
    (hp : BrExt p) (hf : ∀ a, BrExt (f a)) : BrExt (brBind p f) := by
  intro xs ys v r h
  unfold brBind at h ⊢
  cases hpx : p xs with
  | none => rw [hpx] at h; exact absurd h (by simp)
  | some ar =>
    obtain ⟨a, r1⟩ := ar
    rw [hpx] at h
    rw [hp xs ys a r1 hpx]
    exact hf a r1 ys v r h

theorem brExt_byte : BrExt brByte := by
  intro xs ys v r h
  cases xs with
  | nil => simp [brByte] at h
  | cons b bs =>
    simp [brByte] at h ⊢
    simp [h.1, h.2]

theorem brExt_take (n : Nat) : BrExt (brTake n) := by
  intro xs ys v r h
  simp only [brTake] at h ⊢
  by_cases hn : n ≤ xs.length
  · rw [if_pos hn] at h
    obtain ⟨hv, hr⟩ := Prod.mk.injEq .. ▸ Option.some.injEq .. ▸ h
    rw [if_pos (by simp [List.length_append]; omega)]
    rw [List.take_append_of_le_length hn, List.drop_append_of_le_length hn]
    simp [← hv, ← hr]
  · rw [if_neg hn] at h
    exact absurd h (by simp)

theorem brExt_uint (n : Nat) : BrExt (brUInt n) :=
  brExt_bind (brExt_take n) (fun _ => brExt_pure _)

theorem brExt_bool : BrExt brBool := by
  refine brExt_bind brExt_byte (fun b => ?_)
  by_cases h0 : b = 0
  · simp [h0]; exact brExt_pure _
  · by_cases h1 : b = 1
    · simp [h0, h1]; exact brExt_pure _
    · simp [h0, h1]; exact brExt_fail

theorem brExt_option {α : Type} {p : BR α} (hp : BrExt p) : BrExt (brOption p) := by
  refine brExt_bind brExt_byte (fun b => ?_)
  by_cases h0 : b = 0
  · simp [h0]; exact brExt_pure _
  · by_cases h1 : b = 1
    · simp [h0, h1]; exact brExt_bind hp (fun _ => brExt_pure _)
    · simp [h0, h1]; exact brExt_fail

theorem brExt_string : BrExt brString := by
  refine brExt_bind (brExt_uint 4) (fun n => brExt_bind (brExt_take n) (fun bs => ?_))
  by_cases h : utf8Valid bs = true
  · simp [h]
    exact brExt_pure _
  · simp [h]
    exact brExt_fail

theorem brExt_pubkey : BrExt brPubkey := brExt_take 32

/-! ### Reads: a reader consumes exactly the canonical encoding -/

theorem brBind_eq {α β : Type} {p : BR α} {f : α → BR β} {xs : List Nat}
    {a : α} {r : List Nat} (h : p xs = some (a, r)) :
    brBind p f xs = f a r := by
  simp [brBind, h]

theorem brByte_reads (b : Nat) (rest : List Nat) : brByte (b :: rest) = some (b, rest) := rfl

theorem brTake_reads {bs : List Nat} {n : Nat} (h : bs.length = n) (rest : List Nat) :
    brTake n (bs ++ rest) = some (bs, rest) := by
  simp only [brTake]
  rw [if_pos (by simp [List.length_append]; omega)]
  rw [List.take_left' h, List.drop_left' h]

theorem brUInt_reads (n v : Nat) (h : v < 256 ^ n) (rest : List Nat) :
    brUInt n (leBytes n v ++ rest) = some (v, rest) := by
  unfold brUInt
  rw [brBind_eq (brTake_reads (leBytes_length n v) rest)]
  simp [brPure, fromLE_leBytes n v h]

theorem brBool_reads (b : Bool) (rest : List Nat) :
    brBool (serBool b ++ rest) = some (b, rest) := by
  cases b <;> simp [serBool, brBool, brBind, brByte, brPure]

theorem brOption_reads {α : Type} {p : BR α} {f : α → List Nat} {o : Option α}
    (hp : ∀ a rest, o = some a → p (f a ++ rest) = some (a, rest)) (rest : List Nat) :
    brOption p (serOption f o ++ rest) = some (o, rest) := by
  cases o with
  | none => simp [serOption, brOption, brBind, brByte, brPure]
  | some a =>
    simp only [serOption, brOption, List.cons_append]
    rw [brBind_eq (brByte_reads 1 (f a ++ rest))]
    rw [if_neg (by omega : ¬ (1 : Nat) = 0), if_pos rfl]
    rw [brBind_eq (hp a rest rfl)]
    rfl

theorem brString_reads {s : List Nat} (h : s.length < 256 ^ 4)
    (hu : utf8Valid s = true) (rest : List Nat) :
    brString (serBytesLP s ++ rest) = some (s, rest) := by
  unfold brString serBytesLP
  rw [List.append_assoc]
  rw [brBind_eq (brUInt_reads 4 s.length h (s ++ rest))]
  rw [brBind_eq (brTake_reads rfl rest)]
  simp [hu, brPure]

theorem brPubkey_reads {k : List Nat} (h : k.length = 32) (rest : List Nat) :
    brPubkey (k ++ rest) = some (k, rest) :=
  brTake_reads h rest

/-- A reader with the extension property fails on every strict front part of
a buffer it fully consumes: if `p body = some (v, [])` then `p` cannot
succeed on `body.take j` for `j < body.length`. -/
theorem br_take_of_consumed {α : Type} {p : BR α} (he : BrExt p) {body : List Nat}
    {v : α} (h : p body = some (v, [])) {j : Nat} (hj : j < body.length) :
    p (body.take j) = none := by
  cases hres : p (body.take j) with
  | none => rfl
  | some wr =>
    obtain ⟨w, r⟩ := wr
    have hext := he (body.take j) (body.drop j) w r hres
    rw [List.take_append_drop] at hext
    rw [h] at hext
    have hr : r ++ body.drop j = [] := by
      have := Option.some.inj hext
      exact (Prod.mk.injEq .. ▸ this).2.symm
    have hdrop : body.drop j = [] := by
      rcases List.append_eq_nil.mp hr with ⟨_, h2⟩
      exact h2
    have := List.drop_eq_nil_iff.mp hdrop
    omega

/-- Generic read of an optional field from its canonical encoding. -/
theorem brOption_reads_of {α : Type} {p : BR α} {f : α → List Nat} {wfp : α → Bool}
    (hrd : ∀ a, wfp a = true → ∀ rest, p (f a ++ rest) = some (a, rest))
    {o : Option α} (h : o.all wfp = true) (rest : List Nat) :
    brOption p (serOption f o ++ rest) = some (o, rest) := by
  refine brOption_reads (fun a r ha => ?_) rest
  rw [ha] at h
  exact hrd a (by simpa [Option.all] using h) r

/-! ## Raydium AMM instruction payloads (src/ex/raydium.rs) -/

/-- A Solana public key, 32 raw bytes. -/
abbrev Pubkey : Type := List Nat

def Pubkey.wf (k : Pubkey) : Bool := decide (List.length k = 32)

structure SwapInstructionBaseIn where
  amount_in : Nat
  minimum_amount_out : Nat
deriving DecidableEq

def SwapInstructionBaseIn.ser (v : SwapInstructionBaseIn) : List Nat :=
  leBytes 8 v.amount_in ++ leBytes 8 v.minimum_amount_out

def SwapInstructionBaseIn.wf (v : SwapInstructionBaseIn) : Bool :=
  decide (v.amount_in < 256 ^ 8) && decide (v.minimum_amount_out < 256 ^ 8)

def swapBaseInBR : BR SwapInstructionBaseIn :=
  brBind (brUInt 8) (fun a => brBind (brUInt 8) (fun b =>
    brPure (SwapInstructionBaseIn.mk a b)))

theorem brExt_swapBaseIn : BrExt swapBaseInBR :=
  brExt_bind (brExt_uint 8) (fun _ => brExt_bind (brExt_uint 8) (fun _ => brExt_pure _))

theorem swapBaseInBR_reads (v : SwapInstructionBaseIn) (hw : v.wf = true) (rest : List Nat) :
    swapBaseInBR (v.ser ++ rest) = some (v, rest) := by
  obtain ⟨a, b⟩ := v
  simp [SwapInstructionBaseIn.wf] at hw
  unfold swapBaseInBR SwapInstructionBaseIn.ser
  simp only [List.append_assoc]
  rw [brBind_eq (brUInt_reads 8 a hw.1 _), brBind_eq (brUInt_reads 8 b hw.2 _)]
  rfl

structure SwapInstructionBaseOut where
  max_amount_in : Nat
  amount_out : Nat
deriving DecidableEq

def SwapInstructionBaseOut.ser (v : SwapInstructionBaseOut) : List Nat :=
  leBytes 8 v.max_amount_in ++ leBytes 8 v.amount_out

def SwapInstructionBaseOut.wf (v : SwapInstructionBaseOut) : Bool :=
  decide (v.max_amount_in < 256 ^ 8) && decide (v.amount_out < 256 ^ 8)

def swapBaseOutBR : BR SwapInstructionBaseOut :=
  brBind (brUInt 8) (fun a => brBind (brUInt 8) (fun b =>
    brPure (SwapInstructionBaseOut.mk a b)))

theorem brExt_swapBaseOut : BrExt swapBaseOutBR :=
  brExt_bind (brExt_uint 8) (fun _ => brExt_bind (brExt_uint 8) (fun _ => brExt_pure _))

theorem swapBaseOutBR_reads (v : SwapInstructionBaseOut) (hw : v.wf = true) (rest : List Nat) :
    swapBaseOutBR (v.ser ++ rest) = some (v, rest) := by
  obtain ⟨a, b⟩ := v
  simp [SwapInstructionBaseOut.wf] at hw
  unfold swapBaseOutBR SwapInstructionBaseOut.ser
  simp only [List.append_assoc]
  rw [brBind_eq (brUInt_reads 8 a hw.1 _), brBind_eq (brUInt_reads 8 b hw.2 _)]
  rfl

structure DepositInstruction where
  max_coin_amount : Nat
  max_pc_amount : Nat
  base_side : Nat
  other_amount_min : Option Nat
deriving DecidableEq

def DepositInstruction.ser (v : DepositInstruction) : List Nat :=
  leBytes 8 v.max_coin_amount ++ leBytes 8 v.max_pc_amount ++ leBytes 8 v.base_side ++
    serOption (leBytes 8) v.other_amount_min

def u64wf (x : Nat) : Bool := decide (x < 256 ^ 8)

def DepositInstruction.wf (v : DepositInstruction) : Bool :=
  u64wf v.max_coin_amount && u64wf v.max_pc_amount && u64wf v.base_side &&
    v.other_amount_min.all u64wf

def depositBR : BR DepositInstruction :=
  brBind (brUInt 8) (fun a => brBind (brUInt 8) (fun b => brBind (brUInt 8) (fun c =>
    brBind (brOption (brUInt 8)) (fun d =>
      brPure (DepositInstruction.mk a b c d)))))

theorem brExt_deposit : BrExt depositBR :=
  brExt_bind (brExt_uint 8) (fun _ => brExt_bind (brExt_uint 8) (fun _ =>
    brExt_bind (brExt_uint 8) (fun _ =>
      brExt_bind (brExt_option (brExt_uint 8)) (fun _ => brExt_pure _))))

theorem brU64_reads_of : ∀ a, u64wf a = true → ∀ rest,
    brUInt 8 (leBytes 8 a ++ rest) = some (a, rest) := by
  intro a ha rest
  exact brUInt_reads 8 a (by simpa [u64wf] using ha) rest

theorem depositBR_reads (v : DepositInstruction) (hw : v.wf = true) (rest : List Nat) :
    depositBR (v.ser ++ rest) = some (v, rest) := by
  obtain ⟨a, b, c, d⟩ := v
  simp only [DepositInstruction.wf, Bool.and_eq_true] at hw
  obtain ⟨⟨⟨h1, h2⟩, h3⟩, h4⟩ := hw
  unfold depositBR DepositInstruction.ser
  simp only [List.append_assoc]
  rw [brBind_eq (brU64_reads_of a h1 _), brBind_eq (brU64_reads_of b h2 _),
    brBind_eq (brU64_reads_of c h3 _),
    brBind_eq (brOption_reads_of (brU64_reads_of) h4 _)]
  rfl

structure WithdrawInstruction where
  amount : Nat
  min_coin_amount : Option Nat
  min_pc_amount : Option Nat
deriving DecidableEq

def WithdrawInstruction.ser (v : WithdrawInstruction) : List Nat :=
  leBytes 8 v.amount ++ serOption (leBytes 8) v.min_coin_amount ++
    serOption (leBytes 8) v.min_pc_amount

def WithdrawInstruction.wf (v : WithdrawInstruction) : Bool :=
  u64wf v.amount && v.min_coin_amount.all u64wf && v.min_pc_amount.all u64wf

def withdrawBR : BR WithdrawInstruction :=
  brBind (brUInt 8) (fun a => brBind (brOption (brUInt 8)) (fun b =>
    brBind (brOption (brUInt 8)) (fun c =>
      brPure (WithdrawInstruction.mk a b c))))

theorem brExt_withdraw : BrExt withdrawBR :=
  brExt_bind (brExt_uint 8) (fun _ => brExt_bind (brExt_option (brExt_uint 8)) (fun _ =>
    brExt_bind (brExt_option (brExt_uint 8)) (fun _ => brExt_pure _)))

theorem withdrawBR_reads (v : WithdrawInstruction) (hw : v.wf = true) (rest : List Nat) :
    withdrawBR (v.ser ++ rest) = some (v, rest) := by
  obtain ⟨a, b, c⟩ := v
  simp only [WithdrawInstruction.wf, Bool.and_eq_true] at hw
  obtain ⟨⟨h1, h2⟩, h3⟩ := hw
  unfold withdrawBR WithdrawInstruction.ser
  simp only [List.append_assoc]
  rw [brBind_eq (brU64_reads_of a h1 _),
    brBind_eq (brOption_reads_of (brU64_reads_of) h2 _),
    brBind_eq (brOption_reads_of (brU64_reads_of) h3 _)]
  rfl

structure InitializeInstruction where
  nonce : Nat
  open_time : Nat
deriving DecidableEq

def InitializeInstruction.ser (v : InitializeInstruction) : List Nat :=
  leBytes 1 v.nonce ++ leBytes 8 v.open_time

def InitializeInstruction.wf (v : InitializeInstruction) : Bool :=
  decide (v.nonce < 256 ^ 1) && u64wf v.open_time

def initializeBR : BR InitializeInstruction :=
  brBind (brUInt 1) (fun a => brBind (brUInt 8) (fun b =>
    brPure (InitializeInstruction.mk a b)))

theorem brExt_initializeBR : BrExt initializeBR :=
  brExt_bind (brExt_uint 1) (fun _ => brExt_bind (brExt_uint 8) (fun _ => brExt_pure _))

theorem initializeBR_reads (v : InitializeInstruction) (hw : v.wf = true) (rest : List Nat) :
    initializeBR (v.ser ++ rest) = some (v, rest) := by
  obtain ⟨a, b⟩ := v
  simp only [InitializeInstruction.wf, Bool.and_eq_true, decide_eq_true_eq] at hw
  unfold initializeBR InitializeInstruction.ser
  simp only [List.append_assoc]
  rw [brBind_eq (brUInt_reads 1 a hw.1 _), brBind_eq (brU64_reads_of b hw.2 _)]
  rfl

structure Initialize2Instruction where
  nonce : Nat
  open_time : Nat
  init_pc_amount : Nat
  init_coin_amount : Nat
deriving DecidableEq

def Initialize2Instruction.ser (v : Initialize2Instruction) : List Nat :=
  leBytes 1 v.nonce ++ leBytes 8 v.open_time ++ leBytes 8 v.init_pc_amount ++
    leBytes 8 v.init_coin_amount

def Initialize2Instruction.wf (v : Initialize2Instruction) : Bool :=
  decide (v.nonce < 256 ^ 1) && u64wf v.open_time && u64wf v.init_pc_amount &&
    u64wf v.init_coin_amount

def initialize2BR : BR Initialize2Instruction :=
  brBind (brUInt 1) (fun a => brBind (brUInt 8) (fun b => brBind (brUInt 8) (fun c =>
    brBind (brUInt 8) (fun d => brPure (Initialize2Instruction.mk a b c d)))))

theorem brExt_initialize2 : BrExt initialize2BR :=
  brExt_bind (brExt_uint 1) (fun _ => brExt_bind (brExt_uint 8) (fun _ =>
    brExt_bind (brExt_uint 8) (fun _ => brExt_bind (brExt_uint 8) (fun _ => brExt_pure _))))

theorem initialize2BR_reads (v : Initialize2Instruction) (hw : v.wf = true) (rest : List Nat) :
    initialize2BR (v.ser ++ rest) = some (v, rest) := by
  obtain ⟨a, b, c, d⟩ := v
  simp only [Initialize2Instruction.wf, Bool.and_eq_true, decide_eq_true_eq] at hw
  obtain ⟨⟨⟨h1, h2⟩, h3⟩, h4⟩ := hw
  unfold initialize2BR Initialize2Instruction.ser
  simp only [List.append_assoc]
  rw [brBind_eq (brUInt_reads 1 a h1 _), brBind_eq (brU64_reads_of b h2 _),
    brBind_eq (brU64_reads_of c h3 _), brBind_eq (brU64_reads_of d h4 _)]
  rfl

structure PreInitializeInstruction where
  nonce : Nat
deriving DecidableEq

def PreInitializeInstruction.ser (v : PreInitializeInstruction) : List Nat :=
  leBytes 1 v.nonce

def PreInitializeInstruction.wf (v : PreInitializeInstruction) : Bool :=
  decide (v.nonce < 256 ^ 1)

def preInitializeBR : BR PreInitializeInstruction :=
  brBind (brUInt 1) (fun a => brPure (PreInitializeInstruction.mk a))

theorem brExt_preInitialize : BrExt preInitializeBR :=
  brExt_bind (brExt_uint 1) (fun _ => brExt_pure _)

theorem preInitializeBR_reads (v : PreInitializeInstruction) (hw : v.wf = true)
    (rest : List Nat) : preInitializeBR (v.ser ++ rest) = some (v, rest) := by
  obtain ⟨a⟩ := v
  simp only [PreInitializeInstruction.wf, decide_eq_true_eq] at hw
  unfold preInitializeBR PreInitializeInstruction.ser
  rw [brBind_eq (brUInt_reads 1 a hw _)]
  rfl

structure MonitorStepInstruction where
  plan_order_limit : Nat
  place_order_limit : Nat
  cancel_order_limit : Nat
deriving DecidableEq

def MonitorStepInstruction.ser (v : MonitorStepInstruction) : List Nat :=
  leBytes 2 v.plan_order_limit ++ leBytes 2 v.place_order_limit ++
    leBytes 2 v.cancel_order_limit

def MonitorStepInstruction.wf (v : MonitorStepInstruction) : Bool :=
  decide (v.plan_order_limit < 256 ^ 2) && decide (v.place_order_limit < 256 ^ 2) &&
    decide (v.cancel_order_limit < 256 ^ 2)

def monitorStepBR : BR MonitorStepInstruction :=
  brBind (brUInt 2) (fun a => brBind (brUInt 2) (fun b => brBind (brUInt 2) (fun c =>
    brPure (MonitorStepInstruction.mk a b c))))

theorem brExt_monitorStep : BrExt monitorStepBR :=
  brExt_bind (brExt_uint 2) (fun _ => brExt_bind (brExt_uint 2) (fun _ =>
    brExt_bind (brExt_uint 2) (fun _ => brExt_pure _)))

theorem monitorStepBR_reads (v : MonitorStepInstruction) (hw : v.wf = true) (rest : List Nat) :
    monitorStepBR (v.ser ++ rest) = some (v, rest) := by
  obtain ⟨a, b, c⟩ := v
  simp only [MonitorStepInstruction.wf, Bool.and_eq_true, decide_eq_true_eq] at hw
  obtain ⟨⟨h1, h2⟩, h3⟩ := hw
  unfold monitorStepBR MonitorStepInstruction.ser
  simp only [List.append_assoc]
  rw [brBind_eq (brUInt_reads 2 a h1 _), brBind_eq (brUInt_reads 2 b h2 _),
    brBind_eq (brUInt_reads 2 c h3 _)]
  rfl

structure Fees where
  min_separate_numerator : Nat
  min_separate_denominator : Nat
  trade_fee_numerator : Nat
  trade_fee_denominator : Nat
  pnl_numerator : Nat
  pnl_denominator : Nat
  swap_fee_numerator : Nat
  swap_fee_denominator : Nat
deriving DecidableEq

def Fees.ser (v : Fees) : List Nat :=
  leBytes 8 v.min_separate_numerator ++ leBytes 8 v.min_separate_denominator ++
    leBytes 8 v.trade_fee_numerator ++ leBytes 8 v.trade_fee_denominator ++
    leBytes 8 v.pnl_numerator ++ leBytes 8 v.pnl_denominator ++
    leBytes 8 v.swap_fee_numerator ++ leBytes 8 v.swap_fee_denominator

def Fees.wf (v : Fees) : Bool :=
  u64wf v.min_separate_numerator && u64wf v.min_separate_denominator &&
    u64wf v.trade_fee_numerator && u64wf v.trade_fee_denominator &&
    u64wf v.pnl_numerator && u64wf v.pnl_denominator &&
    u64wf v.swap_fee_numerator && u64wf v.swap_fee_denominator

def feesBR : BR Fees :=
  brBind (brUInt 8) (fun a => brBind (brUInt 8) (fun b => brBind (brUInt 8) (fun c =>
    brBind (brUInt 8) (fun d => brBind (brUInt 8) (fun e => brBind (brUInt 8) (fun f =>
      brBind (brUInt 8) (fun g => brBind (brUInt 8) (fun h =>
        brPure (Fees.mk a b c d e f g h)))))))))

theorem brExt_fees : BrExt feesBR :=
  brExt_bind (brExt_uint 8) (fun _ => brExt_bind (brExt_uint 8) (fun _ =>
    brExt_bind (brExt_uint 8) (fun _ => brExt_bind (brExt_uint 8) (fun _ =>
      brExt_bind (brExt_uint 8) (fun _ => brExt_bind (brExt_uint 8) (fun _ =>
        brExt_bind (brExt_uint 8) (fun _ => brExt_bind (brExt_uint 8) (fun _ =>
          brExt_pure _))))))))

theorem feesBR_reads : ∀ v : Fees, v.wf = true → ∀ rest : List Nat,
    feesBR (v.ser ++ rest) = some (v, rest) := by
  intro v hw rest
  obtain ⟨a, b, c, d, e, f, g, h⟩ := v
  simp only [Fees.wf, Bool.and_eq_true] at hw
  obtain ⟨⟨⟨⟨⟨⟨⟨h1, h2⟩, h3⟩, h4⟩, h5⟩, h6⟩, h7⟩, h8⟩ := hw
  unfold feesBR Fees.ser
  simp only [List.append_assoc]
  rw [brBind_eq (brU64_reads_of a h1 _), brBind_eq (brU64_reads_of b h2 _),
    brBind_eq (brU64_reads_of c h3 _), brBind_eq (brU64_reads_of d h4 _),
    brBind_eq (brU64_reads_of e h5 _), brBind_eq (brU64_reads_of f h6 _),
    brBind_eq (brU64_reads_of g h7 _), brBind_eq (brU64_reads_of h h8 _)]
  rfl

structure LastOrderDistance where
  last_order_numerator : Nat
  last_order_denominator : Nat
deriving DecidableEq

def LastOrderDistance.ser (v : LastOrderDistance) : List Nat :=
  leBytes 8 v.last_order_numerator ++ leBytes 8 v.last_order_denominator

def LastOrderDistance.wf (v : LastOrderDistance) : Bool :=
  u64wf v.last_order_numerator && u64wf v.last_order_denominator

def lastOrderDistanceBR : BR LastOrderDistance :=
  brBind (brUInt 8) (fun a => brBind (brUInt 8) (fun b =>
    brPure (LastOrderDistance.mk a b)))

theorem brExt_lastOrderDistance : BrExt lastOrderDistanceBR :=
  brExt_bind (brExt_uint 8) (fun _ => brExt_bind (brExt_uint 8) (fun _ => brExt_pure _))

theorem lastOrderDistanceBR_reads : ∀ v : LastOrderDistance, v.wf = true →
    ∀ rest : List Nat, lastOrderDistanceBR (v.ser ++ rest) = some (v, rest) := by
  intro v hw rest
  obtain ⟨a, b⟩ := v
  simp only [LastOrderDistance.wf, Bool.and_eq_true] at hw
  unfold lastOrderDistanceBR LastOrderDistance.ser
  simp only [List.append_assoc]
  rw [brBind_eq (brU64_reads_of a hw.1 _), brBind_eq (brU64_reads_of b hw.2 _)]
  rfl

theorem brPubkey_reads_of : ∀ k : Pubkey, k.wf = true → ∀ rest : List Nat,
    brPubkey (k ++ rest) = some (k, rest) := by
  intro k hk rest
  exact brPubkey_reads (by simpa [Pubkey.wf] using hk) rest

structure SetParamsInstruction where
  param : Nat
  value : Option Nat
  new_pubkey : Option Pubkey
  fees : Option Fees
  last_order_distance : Option LastOrderDistance
deriving DecidableEq

def SetParamsInstruction.ser (v : SetParamsInstruction) : List Nat :=
  leBytes 1 v.param ++ serOption (leBytes 8) v.value ++ serOption (fun k => k) v.new_pubkey ++
    serOption Fees.ser v.fees ++ serOption LastOrderDistance.ser v.last_order_distance

def SetParamsInstruction.wf (v : SetParamsInstruction) : Bool :=
  decide (v.param < 256 ^ 1) && v.value.all u64wf && v.new_pubkey.all Pubkey.wf &&
    v.fees.all Fees.wf && v.last_order_distance.all LastOrderDistance.wf

def setParamsBR : BR SetParamsInstruction :=
  brBind (brUInt 1) (fun a => brBind (brOption (brUInt 8)) (fun b =>
    brBind (brOption brPubkey) (fun c => brBind (brOption feesBR) (fun d =>
      brBind (brOption lastOrderDistanceBR) (fun e =>
        brPure (SetParamsInstruction.mk a b c d e))))))

theorem brExt_setParams : BrExt setParamsBR :=
  brExt_bind (brExt_uint 1) (fun _ => brExt_bind (brExt_option (brExt_uint 8)) (fun _ =>
    brExt_bind (brExt_option brExt_pubkey) (fun _ =>
      brExt_bind (brExt_option brExt_fees) (fun _ =>
        brExt_bind (brExt_option brExt_lastOrderDistance) (fun _ => brExt_pure _)))))

theorem setParamsBR_reads (v : SetParamsInstruction) (hw : v.wf = true) (rest : List Nat) :
    setParamsBR (v.ser ++ rest) = some (v, rest) := by
  obtain ⟨a, b, c, d, e⟩ := v
  simp only [SetParamsInstruction.wf, Bool.and_eq_true, decide_eq_true_eq] at hw
  obtain ⟨⟨⟨⟨h1, h2⟩, h3⟩, h4⟩, h5⟩ := hw
  unfold setParamsBR SetParamsInstruction.ser
  simp only [List.append_assoc]
  rw [brBind_eq (brUInt_reads 1 a h1 _),
    brBind_eq (brOption_reads_of (brU64_reads_of) h2 _),
    brBind_eq (brOption_reads_of brPubkey_reads_of h3 _),
    brBind_eq (brOption_reads_of feesBR_reads h4 _),
    brBind_eq (brOption_reads_of lastOrderDistanceBR_reads h5 _)]
  rfl

structure WithdrawSrmInstruction where
  amount : Nat
deriving DecidableEq

def WithdrawSrmInstruction.ser (v : WithdrawSrmInstruction) : List Nat :=
  leBytes 8 v.amount

def WithdrawSrmInstruction.wf (v : WithdrawSrmInstruction) : Bool := u64wf v.amount

def withdrawSrmBR : BR WithdrawSrmInstruction :=
  brBind (brUInt 8) (fun a => brPure (WithdrawSrmInstruction.mk a))

theorem brExt_withdrawSrm : BrExt withdrawSrmBR :=
  brExt_bind (brExt_uint 8) (fun _ => brExt_pure _)

theorem withdrawSrmBR_reads (v : WithdrawSrmInstruction) (hw : v.wf = true) (rest : List Nat) :
    withdrawSrmBR (v.ser ++ rest) = some (v, rest) := by
  obtain ⟨a⟩ := v
  unfold withdrawSrmBR WithdrawSrmInstruction.ser
  rw [brBind_eq (brU64_reads_of a hw _)]
  rfl

structure SimulateInstruction where
  param : Nat
  swap_base_in_value : Option SwapInstructionBaseIn
  swap_base_out_value : Option SwapInstructionBaseOut
deriving DecidableEq

def SimulateInstruction.ser (v : SimulateInstruction) : List Nat :=
  leBytes 1 v.param ++ serOption SwapInstructionBaseIn.ser v.swap_base_in_value ++
    serOption SwapInstructionBaseOut.ser v.swap_base_out_value

def SimulateInstruction.wf (v : SimulateInstruction) : Bool :=
  decide (v.param < 256 ^ 1) && v.swap_base_in_value.all SwapInstructionBaseIn.wf &&
    v.swap_base_out_value.all SwapInstructionBaseOut.wf

def simulateBR : BR SimulateInstruction :=
  brBind (brUInt 1) (fun a => brBind (brOption swapBaseInBR) (fun b =>
    brBind (brOption swapBaseOutBR) (fun c =>
      brPure (SimulateInstruction.mk a b c))))

theorem brExt_simulate : BrExt simulateBR :=
  brExt_bind (brExt_uint 1) (fun _ => brExt_bind (brExt_option brExt_swapBaseIn) (fun _ =>
    brExt_bind (brExt_option brExt_swapBaseOut) (fun _ => brExt_pure _)))

theorem simulateBR_reads (v : SimulateInstruction) (hw : v.wf = true) (rest : List Nat) :
    simulateBR (v.ser ++ rest) = some (v, rest) := by
  obtain ⟨a, b, c⟩ := v
  simp only [SimulateInstruction.wf, Bool.and_eq_true, decide_eq_true_eq] at hw
  obtain ⟨⟨h1, h2⟩, h3⟩ := hw
  unfold simulateBR SimulateInstruction.ser
  simp only [List.append_assoc]
  rw [brBind_eq (brUInt_reads 1 a h1 _),
    brBind_eq (brOption_reads_of swapBaseInBR_reads h2 _),
    brBind_eq (brOption_reads_of swapBaseOutBR_reads h3 _)]
  rfl

structure AdminCancelOrdersInstruction where
  limit : Nat
deriving DecidableEq

def AdminCancelOrdersInstruction.ser (v : AdminCancelOrdersInstruction) : List Nat :=
  leBytes 2 v.limit

def AdminCancelOrdersInstruction.wf (v : AdminCancelOrdersInstruction) : Bool :=
  decide (v.limit < 256 ^ 2)

def adminCancelOrdersBR : BR AdminCancelOrdersInstruction :=
  brBind (brUInt 2) (fun a => brPure (AdminCancelOrdersInstruction.mk a))

theorem brExt_adminCancelOrders : BrExt adminCancelOrdersBR :=
  brExt_bind (brExt_uint 2) (fun _ => brExt_pure _)

theorem adminCancelOrdersBR_reads (v : AdminCancelOrdersInstruction) (hw : v.wf = true)
    (rest : List Nat) : adminCancelOrdersBR (v.ser ++ rest) = some (v, rest) := by
  obtain ⟨a⟩ := v
  simp only [AdminCancelOrdersInstruction.wf, decide_eq_true_eq] at hw
  unfold adminCancelOrdersBR AdminCancelOrdersInstruction.ser
  rw [brBind_eq (brUInt_reads 2 a hw _)]
  rfl

structure ConfigArgs where
  param : Nat
  owner : Option Pubkey
  create_pool_fee : Option Nat
deriving DecidableEq

def ConfigArgs.ser (v : ConfigArgs) : List Nat :=
  leBytes 1 v.param ++ serOption (fun k => k) v.owner ++ serOption (leBytes 8) v.create_pool_fee

def ConfigArgs.wf (v : ConfigArgs) : Bool :=
  decide (v.param < 256 ^ 1) && v.owner.all Pubkey.wf && v.create_pool_fee.all u64wf

def configArgsBR : BR ConfigArgs :=
  brBind (brUInt 1) (fun a => brBind (brOption brPubkey) (fun b =>
    brBind (brOption (brUInt 8)) (fun c => brPure (ConfigArgs.mk a b c))))

theorem brExt_configArgs : BrExt configArgsBR :=
  brExt_bind (brExt_uint 1) (fun _ => brExt_bind (brExt_option brExt_pubkey) (fun _ =>
    brExt_bind (brExt_option (brExt_uint 8)) (fun _ => brExt_pure _)))

theorem configArgsBR_reads (v : ConfigArgs) (hw : v.wf = true) (rest : List Nat) :
    configArgsBR (v.ser ++ rest) = some (v, rest) := by
  obtain ⟨a, b, c⟩ := v
  simp only [ConfigArgs.wf, Bool.and_eq_true, decide_eq_true_eq] at hw
  obtain ⟨⟨h1, h2⟩, h3⟩ := hw
  unfold configArgsBR ConfigArgs.ser
  simp only [List.append_assoc]
  rw [brBind_eq (brUInt_reads 1 a h1 _),
    brBind_eq (brOption_reads_of brPubkey_reads_of h2 _),
    brBind_eq (brOption_reads_of (brU64_reads_of) h3 _)]
  rfl

structure WithdrawPnl
deriving DecidableEq

structure CreateConfigAccount
deriving DecidableEq

structure MigrateToOpenBook
deriving DecidableEq

/-! ## The AmmInstruction union and its per-opcode decoders -/

/-- The `AmmInstruction` enum of src/ex/raydium.rs (all sixteen variants,
including `MigrateToOpenBook`, which the union-level decoder never
produces). -/
inductive AmmInstruction
  | Initialize (v : InitializeInstruction)
  | Initialize2 (v : Initialize2Instruction)
  | MonitorStep (v : MonitorStepInstruction)
  | Deposit (v : DepositInstruction)
  | Withdraw (v : WithdrawInstruction)
  | MigrateToOpenBook
  | SetParams (v : SetParamsInstruction)
  | WithdrawPnl
  | WithdrawSrm (v : WithdrawSrmInstruction)
  | SwapBaseIn (v : SwapInstructionBaseIn)
  | PreInitialize (v : PreInitializeInstruction)
  | SwapBaseOut (v : SwapInstructionBaseOut)
  | SimulateInfo (v : SimulateInstruction)
  | AdminCancelOrders (v : AdminCancelOrdersInstruction)
  | CreateConfigAccount
  | UpdateConfigAccount (v : ConfigArgs)
deriving DecidableEq

/-- The error every per-opcode raydium decoder returns when the opcode byte
does not match (the source reuses one message for all of them). -/
def raydiumDecodeErr : String := "failed to convert to target Raydium SwapInstructionBaseOut ix"

/-- The union-level error of `AmmInstruction::try_from` — the spec's
"not recognized". -/
def ammUnionErr : String := "failed to convert to target AmmInstruction"

/-- Common shape of every per-opcode raydium decoder body (after base58
decoding): the first byte must equal the declared opcode, then
`try_from_slice` must deserialize the remaining bytes consuming them
exactly.  A unit payload uses `brPure`, which forces the buffer to be the
single opcode byte — exactly the `data.len() == 1` checks of the source. -/
def decodeWithOpcode {α : Type} (i : Nat) (rd : BR α) (data : List Nat) : Except String α :=
  match data with
  | [] => Except.error raydiumDecodeErr
  | b :: rest =>
    if b = i then
      match rd rest with
      | some (v, []) => Except.ok v
      | some (_, _ :: _) => Except.error "borsh deserialization error"
      | none => Except.error "borsh deserialization error"
    else Except.error raydiumDecodeErr

def DepositInstruction.decode : List Nat → Except String DepositInstruction :=
  decodeWithOpcode 3 depositBR

def WithdrawInstruction.decode : List Nat → Except String WithdrawInstruction :=
  decodeWithOpcode 4 withdrawBR

def SwapInstructionBaseIn.decode : List Nat → Except String SwapInstructionBaseIn :=
  decodeWithOpcode 9 swapBaseInBR

def SwapInstructionBaseOut.decode : List Nat → Except String SwapInstructionBaseOut :=
  decodeWithOpcode 11 swapBaseOutBR

def InitializeInstruction.decode : List Nat → Except String InitializeInstruction :=
  decodeWithOpcode 0 initializeBR

def Initialize2Instruction.decode : List Nat → Except String Initialize2Instruction :=
  decodeWithOpcode 1 initialize2BR

def PreInitializeInstruction.decode : List Nat → Except String PreInitializeInstruction :=
  decodeWithOpcode 10 preInitializeBR

def MonitorStepInstruction.decode : List Nat → Except String MonitorStepInstruction :=
  decodeWithOpcode 2 monitorStepBR

def SetParamsInstruction.decode : List Nat → Except String SetParamsInstruction :=
  decodeWithOpcode 6 setParamsBR

def WithdrawSrmInstruction.decode : List Nat → Except String WithdrawSrmInstruction :=
  decodeWithOpcode 8 withdrawSrmBR

def SimulateInstruction.decode : List Nat → Except String SimulateInstruction :=
  decodeWithOpcode 12 simulateBR

def AdminCancelOrdersInstruction.decode : List Nat → Except String AdminCancelOrdersInstruction :=
  decodeWithOpcode 13 adminCancelOrdersBR

def ConfigArgs.decode : List Nat → Except String ConfigArgs :=
  decodeWithOpcode 16 configArgsBR

def CreateConfigAccount.decode : List Nat → Except String CreateConfigAccount :=
  decodeWithOpcode 14 (brPure CreateConfigAccount.mk)

def WithdrawPnl.decode : List Nat → Except String WithdrawPnl :=
  decodeWithOpcode 7 (brPure WithdrawPnl.mk)

/-- The dedicated opcode-5 decoder (`impl TryFrom for MigrateToOpenBook`),
which the union dispatcher never consults. -/
def MigrateToOpenBook.decode : List Nat → Except String MigrateToOpenBook :=
  decodeWithOpcode 5 (brPure MigrateToOpenBook.mk)

/-- The union-level dispatch of `AmmInstruction::try_from`, after base58
decoding, trying the fifteen candidate decoders in source order and
returning the first success. -/
def AmmInstruction.tryFromBytes (data : List Nat) : Except String AmmInstruction :=
  match DepositInstruction.decode data with
  | Except.ok v => Except.ok (AmmInstruction.Deposit v)
  | Except.error _ =>
  match WithdrawInstruction.decode data with
  | Except.ok v => Except.ok (AmmInstruction.Withdraw v)
  | Except.error _ =>
  match SwapInstructionBaseIn.decode data with
  | Except.ok v => Except.ok (AmmInstruction.SwapBaseIn v)
  | Except.error _ =>
  match SwapInstructionBaseOut.decode data with
  | Except.ok v => Except.ok (AmmInstruction.SwapBaseOut v)
  | Except.error _ =>
  match InitializeInstruction.decode data with
  | Except.ok v => Except.ok (AmmInstruction.Initialize v)
  | Except.error _ =>
  match Initialize2Instruction.decode data with
  | Except.ok v => Except.ok (AmmInstruction.Initialize2 v)
  | Except.error _ =>
  match PreInitializeInstruction.decode data with
  | Except.ok v => Except.ok (AmmInstruction.PreInitialize v)
  | Except.error _ =>
  match MonitorStepInstruction.decode data with
  | Except.ok v => Except.ok (AmmInstruction.MonitorStep v)
  | Except.error _ =>
  match SetParamsInstruction.decode data with
  | Except.ok v => Except.ok (AmmInstruction.SetParams v)
  | Except.error _ =>
  match WithdrawSrmInstruction.decode data with
  | Except.ok v => Except.ok (AmmInstruction.WithdrawSrm v)
  | Except.error _ =>
  match SimulateInstruction.decode data with
  | Except.ok v => Except.ok (AmmInstruction.SimulateInfo v)
  | Except.error _ =>
  match AdminCancelOrdersInstruction.decode data with
  | Except.ok v => Except.ok (AmmInstruction.AdminCancelOrders v)
  | Except.error _ =>
  match ConfigArgs.decode data with
  | Except.ok v => Except.ok (AmmInstruction.UpdateConfigAccount v)
  | Except.error _ =>
  match CreateConfigAccount.decode data with
  | Except.ok _ => Except.ok AmmInstruction.CreateConfigAccount
  | Except.error _ =>
  match WithdrawPnl.decode data with
  | Except.ok _ => Except.ok AmmInstruction.WithdrawPnl
  | Except.error _ => Except.error ammUnionErr

/-- A compiled instruction as seen by the decoders: its data field is
base58 text. -/
structure UiCompiledInstruction where
  data : String
deriving DecidableEq

/-- The `UiInstruction` union: only the `Compiled` arm is handled by either
decoder family; every other arm falls through to the union error. -/
inductive UiInstruction
  | Compiled (ci : UiCompiledInstruction)
  | Parsed
deriving DecidableEq

/-- `AmmInstruction::try_from(UiInstruction)`: each candidate decoder base58
decodes the data itself and propagates a decode failure as its own error;
the union absorbs every candidate error into `ammUnionErr`, so the base58
decode is hoisted here without changing the result. -/
def AmmInstruction.tryFrom (ix : UiInstruction) : Except String AmmInstruction :=
  match ix with
  | UiInstruction.Compiled ci =>
    match bs58Decode ci.data with
    | none => Except.error ammUnionErr
    | some data => AmmInstruction.tryFromBytes data
  | UiInstruction.Parsed => Except.error ammUnionErr

/-- `SwapInstructionBaseIn::try_from(&UiCompiledInstruction)` in isolation:
invalid base58 is returned as an error (the `?` operator), not a panic. -/
def SwapInstructionBaseIn.tryFromCompiled (ci : UiCompiledInstruction) :
    Except String SwapInstructionBaseIn :=
  match bs58Decode ci.data with
  | none => Except.error "invalid base58"
  | some data => SwapInstructionBaseIn.decode data

/-- `MigrateToOpenBook::try_from(&UiCompiledInstruction)` in isolation. -/
def MigrateToOpenBook.tryFromCompiled (ci : UiCompiledInstruction) :
    Except String MigrateToOpenBook :=
  match bs58Decode ci.data with
  | none => Except.error "invalid base58"
  | some data => MigrateToOpenBook.decode data

/-! ### Evaluation of the union on a buffer with a known head byte -/

theorem tryFromBytes_at3 (rest : List Nat) :
    AmmInstruction.tryFromBytes (3 :: rest) =
      (match depositBR rest with
        | some (v, []) => Except.ok (AmmInstruction.Deposit v)
        | some (_, _ :: _) => Except.error ammUnionErr
        | none => Except.error ammUnionErr) := by
  rcases h : depositBR rest with _ | ⟨v, _ | ⟨r0, rs⟩⟩ <;>
    simp [AmmInstruction.tryFromBytes, DepositInstruction.decode, WithdrawInstruction.decode,
      SwapInstructionBaseIn.decode, SwapInstructionBaseOut.decode, InitializeInstruction.decode,
      Initialize2Instruction.decode, PreInitializeInstruction.decode,
      MonitorStepInstruction.decode, SetParamsInstruction.decode, WithdrawSrmInstruction.decode,
      SimulateInstruction.decode, AdminCancelOrdersInstruction.decode, ConfigArgs.decode,
      CreateConfigAccount.decode, WithdrawPnl.decode, decodeWithOpcode, h]


theorem tryFromBytes_at4 (rest : List Nat) :
    AmmInstruction.tryFromBytes (4 :: rest) =
      (match withdrawBR rest with
        | some (v, []) => Except.ok (AmmInstruction.Withdraw v)
        | some (_, _ :: _) => Except.error ammUnionErr
        | none => Except.error ammUnionErr) := by
  rcases h : withdrawBR rest with _ | ⟨v, _ | ⟨r0, rs⟩⟩ <;>
    simp [AmmInstruction.tryFromBytes, DepositInstruction.decode, WithdrawInstruction.decode,
      SwapInstructionBaseIn.decode, SwapInstructionBaseOut.decode, InitializeInstruction.decode,
      Initialize2Instruction.decode, PreInitializeInstruction.decode,
      MonitorStepInstruction.decode, SetParamsInstruction.decode, WithdrawSrmInstruction.decode,
      SimulateInstruction.decode, AdminCancelOrdersInstruction.decode, ConfigArgs.decode,
      CreateConfigAccount.decode, WithdrawPnl.decode, decodeWithOpcode, h]

theorem tryFromBytes_at9 (rest : List Nat) :
    AmmInstruction.tryFromBytes (9 :: rest) =
      (match swapBaseInBR rest with
        | some (v, []) => Except.ok (AmmInstruction.SwapBaseIn v)
        | some (_, _ :: _) => Except.error ammUnionErr
        | none => Except.error ammUnionErr) := by
  rcases h : swapBaseInBR rest with _ | ⟨v, _ | ⟨r0, rs⟩⟩ <;>
    simp [AmmInstruction.tryFromBytes, DepositInstruction.decode, WithdrawInstruction.decode,
      SwapInstructionBaseIn.decode, SwapInstructionBaseOut.decode, InitializeInstruction.decode,
      Initialize2Instruction.decode, PreInitializeInstruction.decode,
      MonitorStepInstruction.decode, SetParamsInstruction.decode, WithdrawSrmInstruction.decode,
      SimulateInstruction.decode, AdminCancelOrdersInstruction.decode, ConfigArgs.decode,
      CreateConfigAccount.decode, WithdrawPnl.decode, decodeWithOpcode, h]

theorem tryFromBytes_at11 (rest : List Nat) :
    AmmInstruction.tryFromBytes (11 :: rest) =
      (match swapBaseOutBR rest with
        | some (v, []) => Except.ok (AmmInstruction.SwapBaseOut v)
        | some (_, _ :: _) => Except.error ammUnionErr
        | none => Except.error ammUnionErr) := by
  rcases h : swapBaseOutBR rest with _ | ⟨v, _ | ⟨r0, rs⟩⟩ <;>
    simp [AmmInstruction.tryFromBytes, DepositInstruction.decode, WithdrawInstruction.decode,
      SwapInstructionBaseIn.decode, SwapInstructionBaseOut.decode, InitializeInstruction.decode,
      Initialize2Instruction.decode, PreInitializeInstruction.decode,
      MonitorStepInstruction.decode, SetParamsInstruction.decode, WithdrawSrmInstruction.decode,
      SimulateInstruction.decode, AdminCancelOrdersInstruction.decode, ConfigArgs.decode,
      CreateConfigAccount.decode, WithdrawPnl.decode, decodeWithOpcode, h]

theorem tryFromBytes_at0 (rest : List Nat) :
    AmmInstruction.tryFromBytes (0 :: rest) =
      (match initializeBR rest with
        | some (v, []) => Except.ok (AmmInstruction.Initialize v)
        | some (_, _ :: _) => Except.error ammUnionErr
        | none => Except.error ammUnionErr) := by
  rcases h : initializeBR rest with _ | ⟨v, _ | ⟨r0, rs⟩⟩ <;>
    simp [AmmInstruction.tryFromBytes, DepositInstruction.decode, WithdrawInstruction.decode,
      SwapInstructionBaseIn.decode, SwapInstructionBaseOut.decode, InitializeInstruction.decode,
      Initialize2Instruction.decode, PreInitializeInstruction.decode,
      MonitorStepInstruction.decode, SetParamsInstruction.decode, WithdrawSrmInstruction.decode,
      SimulateInstruction.decode, AdminCancelOrdersInstruction.decode, ConfigArgs.decode,
      CreateConfigAccount.decode, WithdrawPnl.decode, decodeWithOpcode, h]

theorem tryFromBytes_at1 (rest : List Nat) :
    AmmInstruction.tryFromBytes (1 :: rest) =
      (match initialize2BR rest with
        | some (v, []) => Except.ok (AmmInstruction.Initialize2 v)
        | some (_, _ :: _) => Except.error ammUnionErr
        | none => Except.error ammUnionErr) := by
  rcases h : initialize2BR rest with _ | ⟨v, _ | ⟨r0, rs⟩⟩ <;>
    simp [AmmInstruction.tryFromBytes, DepositInstruction.decode, WithdrawInstruction.decode,
      SwapInstructionBaseIn.decode, SwapInstructionBaseOut.decode, InitializeInstruction.decode,
      Initialize2Instruction.decode, PreInitializeInstruction.decode,
      MonitorStepInstruction.decode, SetParamsInstruction.decode, WithdrawSrmInstruction.decode,
      SimulateInstruction.decode, AdminCancelOrdersInstruction.decode, ConfigArgs.decode,
      CreateConfigAccount.decode, WithdrawPnl.decode, decodeWithOpcode, h]

theorem tryFromBytes_at10 (rest : List Nat) :
    AmmInstruction.tryFromBytes (10 :: rest) =
      (match preInitializeBR rest with
        | some (v, []) => Except.ok (AmmInstruction.PreInitialize v)
        | some (_, _ :: _) => Except.error ammUnionErr
        | none => Except.error ammUnionErr) := by
  rcases h : preInitializeBR rest with _ | ⟨v, _ | ⟨r0, rs⟩⟩ <;>
    simp [AmmInstruction.tryFromBytes, DepositInstruction.decode, WithdrawInstruction.decode,
      SwapInstructionBaseIn.decode, SwapInstructionBaseOut.decode, InitializeInstruction.decode,
      Initialize2Instruction.decode, PreInitializeInstruction.decode,
      MonitorStepInstruction.decode, SetParamsInstruction.decode, WithdrawSrmInstruction.decode,
      SimulateInstruction.decode, AdminCancelOrdersInstruction.decode, ConfigArgs.decode,
      CreateConfigAccount.decode, WithdrawPnl.decode, decodeWithOpcode, h]

theorem tryFromBytes_at2 (rest : List Nat) :
    AmmInstruction.tryFromBytes (2 :: rest) =
      (match monitorStepBR rest with
        | some (v, []) => Except.ok (AmmInstruction.MonitorStep v)
        | some (_, _ :: _) => Except.error ammUnionErr
        | none => Except.error ammUnionErr) := by
  rcases h : monitorStepBR rest with _ | ⟨v, _ | ⟨r0, rs⟩⟩ <;>
    simp [AmmInstruction.tryFromBytes, DepositInstruction.decode, WithdrawInstruction.decode,
      SwapInstructionBaseIn.decode, SwapInstructionBaseOut.decode, InitializeInstruction.decode,
      Initialize2Instruction.decode, PreInitializeInstruction.decode,
      MonitorStepInstruction.decode, SetParamsInstruction.decode, WithdrawSrmInstruction.decode,
      SimulateInstruction.decode, AdminCancelOrdersInstruction.decode, ConfigArgs.decode,
      CreateConfigAccount.decode, WithdrawPnl.decode, decodeWithOpcode, h]

theorem tryFromBytes_at6 (rest : List Nat) :
    AmmInstruction.tryFromBytes (6 :: rest) =
      (match setParamsBR rest with
        | some (v, []) => Except.ok (AmmInstruction.SetParams v)
        | some (_, _ :: _) => Except.error ammUnionErr
        | none => Except.error ammUnionErr) := by
  rcases h : setParamsBR rest with _ | ⟨v, _ | ⟨r0, rs⟩⟩ <;>
    simp [AmmInstruction.tryFromBytes, DepositInstruction.decode, WithdrawInstruction.decode,
      SwapInstructionBaseIn.decode, SwapInstructionBaseOut.decode, InitializeInstruction.decode,
      Initialize2Instruction.decode, PreInitializeInstruction.decode,
      MonitorStepInstruction.decode, SetParamsInstruction.decode, WithdrawSrmInstruction.decode,
      SimulateInstruction.decode, AdminCancelOrdersInstruction.decode, ConfigArgs.decode,
      CreateConfigAccount.decode, WithdrawPnl.decode, decodeWithOpcode, h]

theorem tryFromBytes_at8 (rest : List Nat) :
    AmmInstruction.tryFromBytes (8 :: rest) =
      (match withdrawSrmBR rest with
        | some (v, []) => Except.ok (AmmInstruction.WithdrawSrm v)
        | some (_, _ :: _) => Except.error ammUnionErr
        | none => Except.error ammUnionErr) := by
  rcases h : withdrawSrmBR rest with _ | ⟨v, _ | ⟨r0, rs⟩⟩ <;>
    simp [AmmInstruction.tryFromBytes, DepositInstruction.decode, WithdrawInstruction.decode,
      SwapInstructionBaseIn.decode, SwapInstructionBaseOut.decode, InitializeInstruction.decode,
      Initialize2Instruction.decode, PreInitializeInstruction.decode,
      MonitorStepInstruction.decode, SetParamsInstruction.decode, WithdrawSrmInstruction.decode,
      SimulateInstruction.decode, AdminCancelOrdersInstruction.decode, ConfigArgs.decode,
      CreateConfigAccount.decode, WithdrawPnl.decode, decodeWithOpcode, h]

theorem tryFromBytes_at12 (rest : List Nat) :
    AmmInstruction.tryFromBytes (12 :: rest) =
      (match simulateBR rest with
        | some (v, []) => Except.ok (AmmInstruction.SimulateInfo v)
        | some (_, _ :: _) => Except.error ammUnionErr
        | none => Except.error ammUnionErr) := by
  rcases h : simulateBR rest with _ | ⟨v, _ | ⟨r0, rs⟩⟩ <;>
    simp [AmmInstruction.tryFromBytes, DepositInstruction.decode, WithdrawInstruction.decode,
      SwapInstructionBaseIn.decode, SwapInstructionBaseOut.decode, InitializeInstruction.decode,
      Initialize2Instruction.decode, PreInitializeInstruction.decode,
      MonitorStepInstruction.decode, SetParamsInstruction.decode, WithdrawSrmInstruction.decode,
      SimulateInstruction.decode, AdminCancelOrdersInstruction.decode, ConfigArgs.decode,
      CreateConfigAccount.decode, WithdrawPnl.decode, decodeWithOpcode, h]

theorem tryFromBytes_at13 (rest : List Nat) :
    AmmInstruction.tryFromBytes (13 :: rest) =
      (match adminCancelOrdersBR rest with
        | some (v, []) => Except.ok (AmmInstruction.AdminCancelOrders v)
        | some (_, _ :: _) => Except.error ammUnionErr
        | none => Except.error ammUnionErr) := by
  rcases h : adminCancelOrdersBR rest with _ | ⟨v, _ | ⟨r0, rs⟩⟩ <;>
    simp [AmmInstruction.tryFromBytes, DepositInstruction.decode, WithdrawInstruction.decode,
      SwapInstructionBaseIn.decode, SwapInstructionBaseOut.decode, InitializeInstruction.decode,
      Initialize2Instruction.decode, PreInitializeInstruction.decode,
      MonitorStepInstruction.decode, SetParamsInstruction.decode, WithdrawSrmInstruction.decode,
      SimulateInstruction.decode, AdminCancelOrdersInstruction.decode, ConfigArgs.decode,
      CreateConfigAccount.decode, WithdrawPnl.decode, decodeWithOpcode, h]

theorem tryFromBytes_at16 (rest : List Nat) :
    AmmInstruction.tryFromBytes (16 :: rest) =
      (match configArgsBR rest with
        | some (v, []) => Except.ok (AmmInstruction.UpdateConfigAccount v)
        | some (_, _ :: _) => Except.error ammUnionErr
        | none => Except.error ammUnionErr) := by
  rcases h : configArgsBR rest with _ | ⟨v, _ | ⟨r0, rs⟩⟩ <;>
    simp [AmmInstruction.tryFromBytes, DepositInstruction.decode, WithdrawInstruction.decode,
      SwapInstructionBaseIn.decode, SwapInstructionBaseOut.decode, InitializeInstruction.decode,
      Initialize2Instruction.decode, PreInitializeInstruction.decode,
      MonitorStepInstruction.decode, SetParamsInstruction.decode, WithdrawSrmInstruction.decode,
      SimulateInstruction.decode, AdminCancelOrdersInstruction.decode, ConfigArgs.decode,
      CreateConfigAccount.decode, WithdrawPnl.decode, decodeWithOpcode, h]

theorem tryFromBytes_at14 (rest : List Nat) :
    AmmInstruction.tryFromBytes (14 :: rest) =
      (match rest with
        | [] => Except.ok AmmInstruction.CreateConfigAccount
        | _ :: _ => Except.error ammUnionErr) := by
  rcases rest with _ | ⟨r0, rs⟩ <;>
    simp [AmmInstruction.tryFromBytes, DepositInstruction.decode, WithdrawInstruction.decode,
      SwapInstructionBaseIn.decode, SwapInstructionBaseOut.decode, InitializeInstruction.decode,
      Initialize2Instruction.decode, PreInitializeInstruction.decode,
      MonitorStepInstruction.decode, SetParamsInstruction.decode, WithdrawSrmInstruction.decode,
      SimulateInstruction.decode, AdminCancelOrdersInstruction.decode, ConfigArgs.decode,
      CreateConfigAccount.decode, WithdrawPnl.decode, decodeWithOpcode, brPure]

theorem tryFromBytes_at7 (rest : List Nat) :
    AmmInstruction.tryFromBytes (7 :: rest) =
      (match rest with
        | [] => Except.ok AmmInstruction.WithdrawPnl
        | _ :: _ => Except.error ammUnionErr) := by
  rcases rest with _ | ⟨r0, rs⟩ <;>
    simp [AmmInstruction.tryFromBytes, DepositInstruction.decode, WithdrawInstruction.decode,
      SwapInstructionBaseIn.decode, SwapInstructionBaseOut.decode, InitializeInstruction.decode,
      Initialize2Instruction.decode, PreInitializeInstruction.decode,
      MonitorStepInstruction.decode, SetParamsInstruction.decode, WithdrawSrmInstruction.decode,
      SimulateInstruction.decode, AdminCancelOrdersInstruction.decode, ConfigArgs.decode,
      CreateConfigAccount.decode, WithdrawPnl.decode, decodeWithOpcode, brPure]

/-- The fifteen opcode bytes the union dispatcher can actually accept. -/
def reachableOpcodes : List Nat := [0, 1, 2, 3, 4, 6, 7, 8, 9, 10, 11, 12, 13, 14, 16]

/-- On an empty buffer, or one whose first byte is not a reachable opcode,
every candidate fails its opcode check and the union reports its error. -/
theorem tryFromBytes_unreachable (data : List Nat)
    (h : ∀ b, data.head? = some b → b ∉ reachableOpcodes) :
    AmmInstruction.tryFromBytes data = Except.error ammUnionErr := by
  cases data with
  | nil => rfl
  | cons b rest =>
    have hb := h b rfl
    simp only [reachableOpcodes, List.mem_cons, List.not_mem_nil, or_false] at hb
    push_neg at hb
    obtain ⟨h0, h1, h2, h3, h4, h6, h7, h8, h9, h10, h11, h12, h13, h14, h16⟩ := hb
    simp [AmmInstruction.tryFromBytes, DepositInstruction.decode, WithdrawInstruction.decode,
      SwapInstructionBaseIn.decode, SwapInstructionBaseOut.decode, InitializeInstruction.decode,
      Initialize2Instruction.decode, PreInitializeInstruction.decode,
      MonitorStepInstruction.decode, SetParamsInstruction.decode, WithdrawSrmInstruction.decode,
      SimulateInstruction.decode, AdminCancelOrdersInstruction.decode, ConfigArgs.decode,
      CreateConfigAccount.decode, WithdrawPnl.decode, decodeWithOpcode,
      h0, h1, h2, h3, h4, h6, h7, h8, h9, h10, h11, h12, h13, h14, h16]

/-- One reachable opcode together with its payload, as enumerated by the
spec's opcode table: the claim quantifies over exactly these shapes. -/
inductive AmmPayload
  | init1 (v : InitializeInstruction)
  | init2 (v : Initialize2Instruction)
  | monitorStep (v : MonitorStepInstruction)
  | deposit (v : DepositInstruction)
  | withdraw (v : WithdrawInstruction)
  | setParams (v : SetParamsInstruction)
  | withdrawPnl
  | withdrawSrm (v : WithdrawSrmInstruction)
  | swapBaseIn (v : SwapInstructionBaseIn)
  | preInitialize (v : PreInitializeInstruction)
  | swapBaseOut (v : SwapInstructionBaseOut)
  | simulateInfo (v : SimulateInstruction)
  | adminCancelOrders (v : AdminCancelOrdersInstruction)
  | createConfigAccount
  | updateConfigAccount (v : ConfigArgs)
deriving DecidableEq

def AmmPayload.opcode : AmmPayload → Nat
  | init1 _ => 0
  | init2 _ => 1
  | monitorStep _ => 2
  | deposit _ => 3
  | withdraw _ => 4
  | setParams _ => 6
  | withdrawPnl => 7
  | withdrawSrm _ => 8
  | swapBaseIn _ => 9
  | preInitialize _ => 10
  | swapBaseOut _ => 11
  | simulateInfo _ => 12
  | adminCancelOrders _ => 13
  | createConfigAccount => 14
  | updateConfigAccount _ => 16

/-- The canonical borsh encoding of the payload (without the opcode byte). -/
def AmmPayload.serBody : AmmPayload → List Nat
  | init1 v => v.ser
  | init2 v => v.ser
  | monitorStep v => v.ser
  | deposit v => v.ser
  | withdraw v => v.ser
  | setParams v => v.ser
  | withdrawPnl => []
  | withdrawSrm v => v.ser
  | swapBaseIn v => v.ser
  | preInitialize v => v.ser
  | swapBaseOut v => v.ser
  | simulateInfo v => v.ser
  | adminCancelOrders v => v.ser
  | createConfigAccount => []
  | updateConfigAccount v => v.ser

def AmmPayload.wf : AmmPayload → Bool
  | init1 v => v.wf
  | init2 v => v.wf
  | monitorStep v => v.wf
  | deposit v => v.wf
  | withdraw v => v.wf
  | setParams v => v.wf
  | withdrawPnl => true
  | withdrawSrm v => v.wf
  | swapBaseIn v => v.wf
  | preInitialize v => v.wf
  | swapBaseOut v => v.wf
  | simulateInfo v => v.wf
  | adminCancelOrders v => v.wf
  | createConfigAccount => true
  | updateConfigAccount v => v.wf

def AmmPayload.toInstruction : AmmPayload → AmmInstruction
  | init1 v => AmmInstruction.Initialize v
  | init2 v => AmmInstruction.Initialize2 v
  | monitorStep v => AmmInstruction.MonitorStep v
  | deposit v => AmmInstruction.Deposit v
  | withdraw v => AmmInstruction.Withdraw v
  | setParams v => AmmInstruction.SetParams v
  | withdrawPnl => AmmInstruction.WithdrawPnl
  | withdrawSrm v => AmmInstruction.WithdrawSrm v
  | swapBaseIn v => AmmInstruction.SwapBaseIn v
  | preInitialize v => AmmInstruction.PreInitialize v
  | swapBaseOut v => AmmInstruction.SwapBaseOut v
  | simulateInfo v => AmmInstruction.SimulateInfo v
  | adminCancelOrders v => AmmInstruction.AdminCancelOrders v
  | createConfigAccount => AmmInstruction.CreateConfigAccount
  | updateConfigAccount v => AmmInstruction.UpdateConfigAccount v

/-- The full instruction data buffer: opcode byte, then the payload. -/
def AmmPayload.encode (p : AmmPayload) : List Nat := p.opcode :: p.serBody


/-- Byte level: a buffer `[opcode] ++ borsh(payload)` decodes through the
union dispatcher to the matching variant carrying the original payload. -/
theorem tryFromBytes_encode (p : AmmPayload) (hw : p.wf = true) :
    AmmInstruction.tryFromBytes p.encode = Except.ok p.toInstruction := by
  cases p with
  | init1 v =>
    have hr := initializeBR_reads v hw []
    rw [List.append_nil] at hr
    simp only [AmmPayload.encode, AmmPayload.serBody, AmmPayload.opcode, AmmPayload.toInstruction]
    rw [tryFromBytes_at0, hr]
  | init2 v =>
    have hr := initialize2BR_reads v hw []
    rw [List.append_nil] at hr
    simp only [AmmPayload.encode, AmmPayload.serBody, AmmPayload.opcode, AmmPayload.toInstruction]
    rw [tryFromBytes_at1, hr]
  | monitorStep v =>
    have hr := monitorStepBR_reads v hw []
    rw [List.append_nil] at hr
    simp only [AmmPayload.encode, AmmPayload.serBody, AmmPayload.opcode, AmmPayload.toInstruction]
    rw [tryFromBytes_at2, hr]
  | deposit v =>
    have hr := depositBR_reads v hw []
    rw [List.append_nil] at hr
    simp only [AmmPayload.encode, AmmPayload.serBody, AmmPayload.opcode, AmmPayload.toInstruction]
    rw [tryFromBytes_at3, hr]
  | withdraw v =>
    have hr := withdrawBR_reads v hw []
    rw [List.append_nil] at hr
    simp only [AmmPayload.encode, AmmPayload.serBody, AmmPayload.opcode, AmmPayload.toInstruction]
    rw [tryFromBytes_at4, hr]
  | setParams v =>
    have hr := setParamsBR_reads v hw []
    rw [List.append_nil] at hr
    simp only [AmmPayload.encode, AmmPayload.serBody, AmmPayload.opcode, AmmPayload.toInstruction]
    rw [tryFromBytes_at6, hr]
  | withdrawPnl =>
    simp only [AmmPayload.encode, AmmPayload.serBody, AmmPayload.opcode, AmmPayload.toInstruction]
    rw [tryFromBytes_at7]
  | withdrawSrm v =>
    have hr := withdrawSrmBR_reads v hw []
    rw [List.append_nil] at hr
    simp only [AmmPayload.encode, AmmPayload.serBody, AmmPayload.opcode, AmmPayload.toInstruction]
    rw [tryFromBytes_at8, hr]
  | swapBaseIn v =>
    have hr := swapBaseInBR_reads v hw []
    rw [List.append_nil] at hr
    simp only [AmmPayload.encode, AmmPayload.serBody, AmmPayload.opcode, AmmPayload.toInstruction]
    rw [tryFromBytes_at9, hr]
  | preInitialize v =>
    have hr := preInitializeBR_reads v hw []
    rw [List.append_nil] at hr
    simp only [AmmPayload.encode, AmmPayload.serBody, AmmPayload.opcode, AmmPayload.toInstruction]
    rw [tryFromBytes_at10, hr]
  | swapBaseOut v =>
    have hr := swapBaseOutBR_reads v hw []
    rw [List.append_nil] at hr
    simp only [AmmPayload.encode, AmmPayload.serBody, AmmPayload.opcode, AmmPayload.toInstruction]
    rw [tryFromBytes_at11, hr]
  | simulateInfo v =>
    have hr := simulateBR_reads v hw []
    rw [List.append_nil] at hr
    simp only [AmmPayload.encode, AmmPayload.serBody, AmmPayload.opcode, AmmPayload.toInstruction]
    rw [tryFromBytes_at12, hr]
  | adminCancelOrders v =>
    have hr := adminCancelOrdersBR_reads v hw []
    rw [List.append_nil] at hr
    simp only [AmmPayload.encode, AmmPayload.serBody, AmmPayload.opcode, AmmPayload.toInstruction]
    rw [tryFromBytes_at13, hr]
  | createConfigAccount =>
    simp only [AmmPayload.encode, AmmPayload.serBody, AmmPayload.opcode, AmmPayload.toInstruction]
    rw [tryFromBytes_at14]
  | updateConfigAccount v =>
    have hr := configArgsBR_reads v hw []
    rw [List.append_nil] at hr
    simp only [AmmPayload.encode, AmmPayload.serBody, AmmPayload.opcode, AmmPayload.toInstruction]
    rw [tryFromBytes_at16, hr]

/-- Byte level: every strict front part of such a buffer is rejected by the
union dispatcher. -/
theorem tryFromBytes_truncated (p : AmmPayload) (hw : p.wf = true) (k : Nat)
    (hk : k < p.encode.length) :
    AmmInstruction.tryFromBytes (p.encode.take k) = Except.error ammUnionErr := by
  cases k with
  | zero =>
    simp only [List.take_zero]
    rfl
  | succ j =>
    cases p with
    | init1 v =>
      have hr := initializeBR_reads v hw []
      rw [List.append_nil] at hr
      have hj : j < (InitializeInstruction.ser v).length := by
        simp only [AmmPayload.encode, AmmPayload.serBody, AmmPayload.opcode, AmmPayload.toInstruction, List.length_cons] at hk
        omega
      have hnone := br_take_of_consumed brExt_initializeBR hr hj
      simp only [AmmPayload.encode, AmmPayload.serBody, AmmPayload.opcode, AmmPayload.toInstruction, List.take_succ_cons]
      rw [tryFromBytes_at0, hnone]
    | init2 v =>
      have hr := initialize2BR_reads v hw []
      rw [List.append_nil] at hr
      have hj : j < (Initialize2Instruction.ser v).length := by
        simp only [AmmPayload.encode, AmmPayload.serBody, AmmPayload.opcode, AmmPayload.toInstruction, List.length_cons] at hk
        omega
      have hnone := br_take_of_consumed brExt_initialize2 hr hj
      simp only [AmmPayload.encode, AmmPayload.serBody, AmmPayload.opcode, AmmPayload.toInstruction, List.take_succ_cons]
      rw [tryFromBytes_at1, hnone]
    | monitorStep v =>
      have hr := monitorStepBR_reads v hw []
      rw [List.append_nil] at hr
      have hj : j < (MonitorStepInstruction.ser v).length := by
        simp only [AmmPayload.encode, AmmPayload.serBody, AmmPayload.opcode, AmmPayload.toInstruction, List.length_cons] at hk
        omega
      have hnone := br_take_of_consumed brExt_monitorStep hr hj
      simp only [AmmPayload.encode, AmmPayload.serBody, AmmPayload.opcode, AmmPayload.toInstruction, List.take_succ_cons]
      rw [tryFromBytes_at2, hnone]
    | deposit v =>
      have hr := depositBR_reads v hw []
      rw [List.append_nil] at hr
      have hj : j < (DepositInstruction.ser v).length := by
        simp only [AmmPayload.encode, AmmPayload.serBody, AmmPayload.opcode, AmmPayload.toInstruction, List.length_cons] at hk
        omega
      have hnone := br_take_of_consumed brExt_deposit hr hj
      simp only [AmmPayload.encode, AmmPayload.serBody, AmmPayload.opcode, AmmPayload.toInstruction, List.take_succ_cons]
      rw [tryFromBytes_at3, hnone]
    | withdraw v =>
      have hr := withdrawBR_reads v hw []
      rw [List.append_nil] at hr
      have hj : j < (WithdrawInstruction.ser v).length := by
        simp only [AmmPayload.encode, AmmPayload.serBody, AmmPayload.opcode, AmmPayload.toInstruction, List.length_cons] at hk
        omega
      have hnone := br_take_of_consumed brExt_withdraw hr hj
      simp only [AmmPayload.encode, AmmPayload.serBody, AmmPayload.opcode, AmmPayload.toInstruction, List.take_succ_cons]
      rw [tryFromBytes_at4, hnone]
    | setParams v =>
      have hr := setParamsBR_reads v hw []
      rw [List.append_nil] at hr
      have hj : j < (SetParamsInstruction.ser v).length := by
        simp only [AmmPayload.encode, AmmPayload.serBody, AmmPayload.opcode, AmmPayload.toInstruction, List.length_cons] at hk
        omega
      have hnone := br_take_of_consumed brExt_setParams hr hj
      simp only [AmmPayload.encode, AmmPayload.serBody, AmmPayload.opcode, AmmPayload.toInstruction, List.take_succ_cons]
      rw [tryFromBytes_at6, hnone]
    | withdrawPnl =>
      simp only [AmmPayload.encode, AmmPayload.serBody, AmmPayload.opcode, AmmPayload.toInstruction, List.length_cons, List.length_nil] at hk
      omega
    | withdrawSrm v =>
      have hr := withdrawSrmBR_reads v hw []
      rw [List.append_nil] at hr
      have hj : j < (WithdrawSrmInstruction.ser v).length := by
        simp only [AmmPayload.encode, AmmPayload.serBody, AmmPayload.opcode, AmmPayload.toInstruction, List.length_cons] at hk
        omega
      have hnone := br_take_of_consumed brExt_withdrawSrm hr hj
      simp only [AmmPayload.encode, AmmPayload.serBody, AmmPayload.opcode, AmmPayload.toInstruction, List.take_succ_cons]
      rw [tryFromBytes_at8, hnone]
    | swapBaseIn v =>
      have hr := swapBaseInBR_reads v hw []
      rw [List.append_nil] at hr
      have hj : j < (SwapInstructionBaseIn.ser v).length := by
        simp only [AmmPayload.encode, AmmPayload.serBody, AmmPayload.opcode, AmmPayload.toInstruction, List.length_cons] at hk
        omega
      have hnone := br_take_of_consumed brExt_swapBaseIn hr hj
      simp only [AmmPayload.encode, AmmPayload.serBody, AmmPayload.opcode, AmmPayload.toInstruction, List.take_succ_cons]
      rw [tryFromBytes_at9, hnone]
    | preInitialize v =>
      have hr := preInitializeBR_reads v hw []
      rw [List.append_nil] at hr
      have hj : j < (PreInitializeInstruction.ser v).length := by
        simp only [AmmPayload.encode, AmmPayload.serBody, AmmPayload.opcode, AmmPayload.toInstruction, List.length_cons] at hk
        omega
      have hnone := br_take_of_consumed brExt_preInitialize hr hj
      simp only [AmmPayload.encode, AmmPayload.serBody, AmmPayload.opcode, AmmPayload.toInstruction, List.take_succ_cons]
      rw [tryFromBytes_at10, hnone]
    | swapBaseOut v =>
      have hr := swapBaseOutBR_reads v hw []
      rw [List.append_nil] at hr
      have hj : j < (SwapInstructionBaseOut.ser v).length := by
        simp only [AmmPayload.encode, AmmPayload.serBody, AmmPayload.opcode, AmmPayload.toInstruction, List.length_cons] at hk
        omega
      have hnone := br_take_of_consumed brExt_swapBaseOut hr hj
      simp only [AmmPayload.encode, AmmPayload.serBody, AmmPayload.opcode, AmmPayload.toInstruction, List.take_succ_cons]
      rw [tryFromBytes_at11, hnone]
    | simulateInfo v =>
      have hr := simulateBR_reads v hw []
      rw [List.append_nil] at hr
      have hj : j < (SimulateInstruction.ser v).length := by
        simp only [AmmPayload.encode, AmmPayload.serBody, AmmPayload.opcode, AmmPayload.toInstruction, List.length_cons] at hk
        omega
      have hnone := br_take_of_consumed brExt_simulate hr hj
      simp only [AmmPayload.encode, AmmPayload.serBody, AmmPayload.opcode, AmmPayload.toInstruction, List.take_succ_cons]
      rw [tryFromBytes_at12, hnone]
    | adminCancelOrders v =>
      have hr := adminCancelOrdersBR_reads v hw []
      rw [List.append_nil] at hr
      have hj : j < (AdminCancelOrdersInstruction.ser v).length := by
        simp only [AmmPayload.encode, AmmPayload.serBody, AmmPayload.opcode, AmmPayload.toInstruction, List.length_cons] at hk
        omega
      have hnone := br_take_of_consumed brExt_adminCancelOrders hr hj
      simp only [AmmPayload.encode, AmmPayload.serBody, AmmPayload.opcode, AmmPayload.toInstruction, List.take_succ_cons]
      rw [tryFromBytes_at13, hnone]
    | createConfigAccount =>
      simp only [AmmPayload.encode, AmmPayload.serBody, AmmPayload.opcode, AmmPayload.toInstruction, List.length_cons, List.length_nil] at hk
      omega
    | updateConfigAccount v =>
      have hr := configArgsBR_reads v hw []
      rw [List.append_nil] at hr
      have hj : j < (ConfigArgs.ser v).length := by
        simp only [AmmPayload.encode, AmmPayload.serBody, AmmPayload.opcode, AmmPayload.toInstruction, List.length_cons] at hk
        omega
      have hnone := br_take_of_consumed brExt_configArgs hr hj
      simp only [AmmPayload.encode, AmmPayload.serBody, AmmPayload.opcode, AmmPayload.toInstruction, List.take_succ_cons]
      rw [tryFromBytes_at16, hnone]

/-- C1: for every reachable AMM opcode of the spec's table (0–4, 6–14, 16,
here enumerated by `AmmPayload`), an instruction whose data is the base58
encoding of `[opcode] ++ borsh(payload)` decodes through the union-level
`AmmInstruction::try_from` to the matching tagged variant carrying the
original payload fields; a buffer whose first byte is any other opcode
value (or an empty buffer), and every truncation of a well-formed buffer,
fail with the union's "not recognized" error. -/
theorem amm_instruction_decode_roundtrip :
    (∀ p : AmmPayload, p.wf = true → ∀ ci : UiCompiledInstruction,
      bs58Decode ci.data = some p.encode →
      AmmInstruction.tryFrom (UiInstruction.Compiled ci) = Except.ok p.toInstruction) ∧
    (∀ ci : UiCompiledInstruction, ∀ data : List Nat, bs58Decode ci.data = some data →
      (∀ b, data.head? = some b → b ∉ reachableOpcodes) →
      AmmInstruction.tryFrom (UiInstruction.Compiled ci) = Except.error ammUnionErr) ∧
    (∀ p : AmmPayload, p.wf = true → ∀ k, k < p.encode.length →
      ∀ ci : UiCompiledInstruction, bs58Decode ci.data = some (p.encode.take k) →
      AmmInstruction.tryFrom (UiInstruction.Compiled ci) = Except.error ammUnionErr) := by
  refine ⟨?_, ?_, ?_⟩
  · intro p hw ci hd
    simp [AmmInstruction.tryFrom, hd, tryFromBytes_encode p hw]
  · intro ci data hd hb
    simp [AmmInstruction.tryFrom, hd, tryFromBytes_unreachable data hb]
  · intro p hw k hk ci hd
    simp [AmmInstruction.tryFrom, hd, tryFromBytes_truncated p hw k hk]

/-- Witness for C1: a concrete `SwapBaseIn` buffer round-trips; opcode 200
is rejected; the 5-byte truncation of the `SwapBaseIn` buffer is rejected. -/
theorem amm_instruction_decode_roundtrip_witness :
    AmmInstruction.tryFrom (UiInstruction.Compiled ⟨"5udcSuuaAw521V35Xj8kGXq"⟩) =
      Except.ok (AmmInstruction.SwapBaseIn ⟨1, 2⟩) ∧
    AmmInstruction.tryFrom (UiInstruction.Compiled ⟨"4T"⟩) = Except.error ammUnionErr ∧
    AmmInstruction.tryFrom (UiInstruction.Compiled ⟨"21vGTZq"⟩) = Except.error ammUnionErr := by
  refine ⟨?_, ?_, ?_⟩
  · exact amm_instruction_decode_roundtrip.1 (AmmPayload.swapBaseIn ⟨1, 2⟩) (by decide)
      ⟨"5udcSuuaAw521V35Xj8kGXq"⟩ (by decide)
  · refine amm_instruction_decode_roundtrip.2.1 ⟨"4T"⟩ [200] (by decide) ?_
    intro b hb
    simp [List.head?] at hb
    subst hb
    decide
  · exact amm_instruction_decode_roundtrip.2.2 (AmmPayload.swapBaseIn ⟨1, 2⟩) (by decide)
      5 (by decide) ⟨"21vGTZq"⟩ (by decide)

/-- C5: an instruction whose decoded data is exactly the single byte 5 (the
well-formed `MigrateToOpenBook` encoding) is rejected by the union-level
decoder, while the dedicated opcode-5 decoder accepts the same instruction. -/
theorem migrate_to_open_book_unreachable :
    ∀ ci : UiCompiledInstruction, bs58Decode ci.data = some [5] →
      AmmInstruction.tryFrom (UiInstruction.Compiled ci) = Except.error ammUnionErr ∧
      MigrateToOpenBook.tryFromCompiled ci = Except.ok MigrateToOpenBook.mk := by
  intro ci hd
  constructor
  · simp only [AmmInstruction.tryFrom, hd]
    rfl
  · simp only [MigrateToOpenBook.tryFromCompiled, hd]
    rfl

/-- Witness for C5: the base58 text "6" decodes to the byte buffer `[5]`. -/
theorem migrate_to_open_book_unreachable_witness :
    AmmInstruction.tryFrom (UiInstruction.Compiled ⟨"6"⟩) = Except.error ammUnionErr ∧
    MigrateToOpenBook.tryFromCompiled ⟨"6"⟩ = Except.ok MigrateToOpenBook.mk :=
  migrate_to_open_book_unreachable ⟨"6"⟩ (by decide)

/-! ## Launch-program (pumpfun) event decoders (src/ex/pumpfun.rs) -/

def PUMPFUN_CREATE_EVENT : List Nat := [27, 114, 169, 77, 222, 235, 99, 118]

def PUMPFUN_COMPLETE_EVENT : List Nat := [95, 114, 97, 156, 212, 46, 152, 8]

def PUMPFUN_TRADE_EVENT : List Nat := [189, 219, 127, 211, 78, 230, 97, 238]

def strWf (s : List Nat) : Bool := decide (s.length < 256 ^ 4) && utf8Valid s

theorem brString_reads_of : ∀ s : List Nat, strWf s = true → ∀ rest : List Nat,
    brString (serBytesLP s ++ rest) = some (s, rest) := by
  intro s hs rest
  simp only [strWf, Bool.and_eq_true, decide_eq_true_eq] at hs
  exact brString_reads hs.1 hs.2 rest

/-- The Create event payload; borsh strings are kept as raw byte lists
(their decoder additionally demands valid UTF-8, see `brString`). -/
structure CreateEvent where
  name : List Nat
  symbol : List Nat
  uri : List Nat
  mint : Pubkey
  bonding_curve : Pubkey
  user : Pubkey
deriving DecidableEq

def CreateEvent.ser (v : CreateEvent) : List Nat :=
  serBytesLP v.name ++ serBytesLP v.symbol ++ serBytesLP v.uri ++ v.mint ++
    v.bonding_curve ++ v.user

def CreateEvent.wf (v : CreateEvent) : Bool :=
  strWf v.name && strWf v.symbol && strWf v.uri && v.mint.wf && v.bonding_curve.wf &&
    v.user.wf

def createEventBR : BR CreateEvent :=
  brBind brString (fun a => brBind brString (fun b => brBind brString (fun c =>
    brBind brPubkey (fun d => brBind brPubkey (fun e => brBind brPubkey (fun f =>
      brPure (CreateEvent.mk a b c d e f)))))))

theorem createEventBR_reads (v : CreateEvent) (hw : v.wf = true) (rest : List Nat) :
    createEventBR (v.ser ++ rest) = some (v, rest) := by
  obtain ⟨a, b, c, d, e, f⟩ := v
  simp only [CreateEvent.wf, Bool.and_eq_true] at hw
  obtain ⟨⟨⟨⟨⟨h1, h2⟩, h3⟩, h4⟩, h5⟩, h6⟩ := hw
  unfold createEventBR CreateEvent.ser
  simp only [List.append_assoc]
  rw [brBind_eq (brString_reads_of a h1 _), brBind_eq (brString_reads_of b h2 _),
    brBind_eq (brString_reads_of c h3 _), brBind_eq (brPubkey_reads_of d h4 _),
    brBind_eq (brPubkey_reads_of e h5 _), brBind_eq (brPubkey_reads_of f h6 _)]
  rfl

/-- The Complete event payload; the `i64` timestamp is modelled by its
64-bit little-endian bit pattern. -/
structure CompleteEvent where
  user : Pubkey
  mint : Pubkey
  bonding_curve : Pubkey
  timestamp : Nat
deriving DecidableEq

def CompleteEvent.ser (v : CompleteEvent) : List Nat :=
  v.user ++ v.mint ++ v.bonding_curve ++ leBytes 8 v.timestamp

def CompleteEvent.wf (v : CompleteEvent) : Bool :=
  v.user.wf && v.mint.wf && v.bonding_curve.wf && u64wf v.timestamp

def completeEventBR : BR CompleteEvent :=
  brBind brPubkey (fun a => brBind brPubkey (fun b => brBind brPubkey (fun c =>
    brBind (brUInt 8) (fun d => brPure (CompleteEvent.mk a b c d)))))

theorem completeEventBR_reads (v : CompleteEvent) (hw : v.wf = true) (rest : List Nat) :
    completeEventBR (v.ser ++ rest) = some (v, rest) := by
  obtain ⟨a, b, c, d⟩ := v
  simp only [CompleteEvent.wf, Bool.and_eq_true] at hw
  obtain ⟨⟨⟨h1, h2⟩, h3⟩, h4⟩ := hw
  unfold completeEventBR CompleteEvent.ser
  simp only [List.append_assoc]
  rw [brBind_eq (brPubkey_reads_of a h1 _), brBind_eq (brPubkey_reads_of b h2 _),
    brBind_eq (brPubkey_reads_of c h3 _), brBind_eq (brU64_reads_of d h4 _)]
  rfl

/-- The Trade event payload (shared by the Buy and Sell variants). -/
structure TradeEvent where
  mint : Pubkey
  sol_amount : Nat
  token_amount : Nat
  is_buy : Bool
  user : Pubkey
  timestamp : Nat
  virtual_sol_reserves : Nat
  virtual_token_reserves : Nat
  real_sol_reserves : Nat
  real_token_reserves : Nat
deriving DecidableEq

def TradeEvent.ser (v : TradeEvent) : List Nat :=
  v.mint ++ leBytes 8 v.sol_amount ++ leBytes 8 v.token_amount ++ serBool v.is_buy ++
    v.user ++ leBytes 8 v.timestamp ++ leBytes 8 v.virtual_sol_reserves ++
    leBytes 8 v.virtual_token_reserves ++ leBytes 8 v.real_sol_reserves ++
    leBytes 8 v.real_token_reserves

def TradeEvent.wf (v : TradeEvent) : Bool :=
  v.mint.wf && u64wf v.sol_amount && u64wf v.token_amount && v.user.wf &&
    u64wf v.timestamp && u64wf v.virtual_sol_reserves && u64wf v.virtual_token_reserves &&
    u64wf v.real_sol_reserves && u64wf v.real_token_reserves

def tradeEventBR : BR TradeEvent :=
  brBind brPubkey (fun a => brBind (brUInt 8) (fun b => brBind (brUInt 8) (fun c =>
    brBind brBool (fun d => brBind brPubkey (fun e => brBind (brUInt 8) (fun f =>
      brBind (brUInt 8) (fun g => brBind (brUInt 8) (fun h => brBind (brUInt 8) (fun i =>
        brBind (brUInt 8) (fun j =>
          brPure (TradeEvent.mk a b c d e f g h i j)))))))))))

theorem tradeEventBR_reads (v : TradeEvent) (hw : v.wf = true) (rest : List Nat) :
    tradeEventBR (v.ser ++ rest) = some (v, rest) := by
  obtain ⟨a, b, c, d, e, f, g, h, i, j⟩ := v
  simp only [TradeEvent.wf, Bool.and_eq_true] at hw
  obtain ⟨⟨⟨⟨⟨⟨⟨⟨h1, h2⟩, h3⟩, h4⟩, h5⟩, h6⟩, h7⟩, h8⟩, h9⟩ := hw
  unfold tradeEventBR TradeEvent.ser
  simp only [List.append_assoc]
  rw [brBind_eq (brPubkey_reads_of a h1 _), brBind_eq (brU64_reads_of b h2 _),
    brBind_eq (brU64_reads_of c h3 _), brBind_eq (brBool_reads d _),
    brBind_eq (brPubkey_reads_of e h4 _), brBind_eq (brU64_reads_of f h5 _),
    brBind_eq (brU64_reads_of g h6 _), brBind_eq (brU64_reads_of h h7 _),
    brBind_eq (brU64_reads_of i h8 _), brBind_eq (brU64_reads_of j h9 _)]
  rfl

/-- `CreateEvent::try_from_compiled_instruction` after the (unwrapped) base58
decode: payload longer than 16 bytes, discriminator at bytes 8..16, then
`try_from_slice` over the bytes from offset 16. -/
def CreateEvent.tryFromBytes (data : List Nat) : Option CreateEvent :=
  if 16 < data.length ∧ (data.drop 8).take 8 = PUMPFUN_CREATE_EVENT then
    match createEventBR (data.drop 16) with
    | some (v, []) => some v
    | _ => none
  else none

def CompleteEvent.tryFromBytes (data : List Nat) : Option CompleteEvent :=
  if 16 < data.length ∧ (data.drop 8).take 8 = PUMPFUN_COMPLETE_EVENT then
    match completeEventBR (data.drop 16) with
    | some (v, []) => some v
    | _ => none
  else none

def TradeEvent.tryFromBytes (data : List Nat) : Option TradeEvent :=
  if 16 < data.length ∧ (data.drop 8).take 8 = PUMPFUN_TRADE_EVENT then
    match tradeEventBR (data.drop 16) with
    | some (v, []) => some v
    | _ => none
  else none

/-- The pumpfun decoders call `.unwrap()` on the base58 decode: an invalid
base58 data field is a panic, modelled as the outer `none`. -/
def CreateEvent.tryFromCompiledInstruction (ci : UiCompiledInstruction) :
    Option (Option CreateEvent) :=
  (bs58Decode ci.data).map CreateEvent.tryFromBytes

def CompleteEvent.tryFromCompiledInstruction (ci : UiCompiledInstruction) :
    Option (Option CompleteEvent) :=
  (bs58Decode ci.data).map CompleteEvent.tryFromBytes

def TradeEvent.tryFromCompiledInstruction (ci : UiCompiledInstruction) :
    Option (Option TradeEvent) :=
  (bs58Decode ci.data).map TradeEvent.tryFromBytes

/-- The `TargetEvent` union of src/ex/pumpfun.rs. -/
inductive TargetEvent
  | PumpfunBuy (v : TradeEvent)
  | PumpfunSell (v : TradeEvent)
  | PumpfunCreate (v : CreateEvent)
  | PumpfunComplete (v : CompleteEvent)
deriving DecidableEq

def pumpfunUnionErr : String := "failed to convert to target tx"

/-- The union-level dispatch of `TargetEvent::try_from` after base58
decoding: Create, then Complete, then Trade (split on `is_buy`). -/
def TargetEvent.tryFromBytes (data : List Nat) : Except String TargetEvent :=
  match CreateEvent.tryFromBytes data with
  | some c => Except.ok (TargetEvent.PumpfunCreate c)
  | none =>
  match CompleteEvent.tryFromBytes data with
  | some c => Except.ok (TargetEvent.PumpfunComplete c)
  | none =>
  match TradeEvent.tryFromBytes data with
  | some t =>
    if t.is_buy then Except.ok (TargetEvent.PumpfunBuy t)
    else Except.ok (TargetEvent.PumpfunSell t)
  | none => Except.error pumpfunUnionErr

/-- `TargetEvent::try_from(UiInstruction)`: every candidate unwraps the same
base58 decode, so an invalid data field panics (outer `none`) before any
candidate can fail gracefully. -/
def TargetEvent.tryFrom (ix : UiInstruction) : Option (Except String TargetEvent) :=
  match ix with
  | UiInstruction.Compiled ci => (bs58Decode ci.data).map TargetEvent.tryFromBytes
  | UiInstruction.Parsed => some (Except.error pumpfunUnionErr)

theorem slice8_16 {pre mid rest : List Nat} (hp : pre.length = 8) (hm : mid.length = 8) :
    ((pre ++ (mid ++ rest)).drop 8).take 8 = mid := by
  rw [List.drop_left' hp, List.take_left' hm]

theorem drop16_eq {pre mid rest : List Nat} (hp : pre.length = 8) (hm : mid.length = 8) :
    (pre ++ (mid ++ rest)).drop 16 = rest := by
  rw [← List.append_assoc]
  exact List.drop_left' (by simp [List.length_append, hp, hm])

theorem createEvent_tryFromBytes_none_of (data : List Nat)
    (h : ¬ (16 < data.length ∧ (data.drop 8).take 8 = PUMPFUN_CREATE_EVENT)) :
    CreateEvent.tryFromBytes data = none := by
  unfold CreateEvent.tryFromBytes
  rw [if_neg h]

theorem completeEvent_tryFromBytes_none_of (data : List Nat)
    (h : ¬ (16 < data.length ∧ (data.drop 8).take 8 = PUMPFUN_COMPLETE_EVENT)) :
    CompleteEvent.tryFromBytes data = none := by
  unfold CompleteEvent.tryFromBytes
  rw [if_neg h]

theorem tradeEvent_tryFromBytes_none_of (data : List Nat)
    (h : ¬ (16 < data.length ∧ (data.drop 8).take 8 = PUMPFUN_TRADE_EVENT)) :
    TradeEvent.tryFromBytes data = none := by
  unfold TradeEvent.tryFromBytes
  rw [if_neg h]

theorem createEvent_tryFromBytes_encode {pre : List Nat} (hp : pre.length = 8)
    (v : CreateEvent) (hw : v.wf = true) :
    CreateEvent.tryFromBytes (pre ++ (PUMPFUN_CREATE_EVENT ++ v.ser)) = some v := by
  have hser := createEventBR_reads v hw []
  rw [List.append_nil] at hser
  have h1 : 1 ≤ (CreateEvent.ser v).length := by
    simp [CreateEvent.ser, serBytesLP, List.length_append, leBytes_length]
    omega
  have hc : 16 < (pre ++ (PUMPFUN_CREATE_EVENT ++ v.ser)).length ∧
      ((pre ++ (PUMPFUN_CREATE_EVENT ++ v.ser)).drop 8).take 8 = PUMPFUN_CREATE_EVENT := by
    refine ⟨?_, slice8_16 hp (by decide)⟩
    simp only [List.length_append, hp, PUMPFUN_CREATE_EVENT, List.length_cons,
      List.length_nil]
    omega
  unfold CreateEvent.tryFromBytes
  rw [if_pos hc, drop16_eq hp (by decide), hser]

theorem completeEvent_tryFromBytes_encode {pre : List Nat} (hp : pre.length = 8)
    (v : CompleteEvent) (hw : v.wf = true) :
    CompleteEvent.tryFromBytes (pre ++ (PUMPFUN_COMPLETE_EVENT ++ v.ser)) = some v := by
  have hser := completeEventBR_reads v hw []
  rw [List.append_nil] at hser
  have h1 : 1 ≤ (CompleteEvent.ser v).length := by
    simp [CompleteEvent.ser, List.length_append, leBytes_length]
    omega
  have hc : 16 < (pre ++ (PUMPFUN_COMPLETE_EVENT ++ v.ser)).length ∧
      ((pre ++ (PUMPFUN_COMPLETE_EVENT ++ v.ser)).drop 8).take 8 = PUMPFUN_COMPLETE_EVENT := by
    refine ⟨?_, slice8_16 hp (by decide)⟩
    simp only [List.length_append, hp, PUMPFUN_COMPLETE_EVENT, List.length_cons,
      List.length_nil]
    omega
  unfold CompleteEvent.tryFromBytes
  rw [if_pos hc, drop16_eq hp (by decide), hser]

theorem tradeEvent_tryFromBytes_encode {pre : List Nat} (hp : pre.length = 8)
    (v : TradeEvent) (hw : v.wf = true) :
    TradeEvent.tryFromBytes (pre ++ (PUMPFUN_TRADE_EVENT ++ v.ser)) = some v := by
  have hser := tradeEventBR_reads v hw []
  rw [List.append_nil] at hser
  have h1 : 1 ≤ (TradeEvent.ser v).length := by
    simp [TradeEvent.ser, serBool, List.length_append, leBytes_length]
    omega
  have hc : 16 < (pre ++ (PUMPFUN_TRADE_EVENT ++ v.ser)).length ∧
      ((pre ++ (PUMPFUN_TRADE_EVENT ++ v.ser)).drop 8).take 8 = PUMPFUN_TRADE_EVENT := by
    refine ⟨?_, slice8_16 hp (by decide)⟩
    simp only [List.length_append, hp, PUMPFUN_TRADE_EVENT, List.length_cons,
      List.length_nil]
    omega
  unfold TradeEvent.tryFromBytes
  rw [if_pos hc, drop16_eq hp (by decide), hser]

/-- C4: for every compiled instruction whose data base58 decodes, the
launch-program event decoder rejects buffers of decoded length 16 or fewer;
accepts `pre(8) ++ discriminator(8) ++ borsh(payload)` for each of the three
discriminators (a well-formed Create payload has UTF-8-valid string
fields, as borsh demands), surfacing a Trade with `is_buy` true as Buy and
otherwise as Sell with identical fields; and rejects every buffer whose
bytes 8..16 match none of the three discriminators. -/
theorem pumpfun_event_decode :
    (∀ ci : UiCompiledInstruction, ∀ bytes : List Nat, bs58Decode ci.data = some bytes →
      bytes.length ≤ 16 →
      TargetEvent.tryFrom (UiInstruction.Compiled ci) = some (Except.error pumpfunUnionErr)) ∧
    (∀ ci : UiCompiledInstruction, ∀ pre : List Nat, ∀ v : CreateEvent, pre.length = 8 →
      v.wf = true → bs58Decode ci.data = some (pre ++ (PUMPFUN_CREATE_EVENT ++ v.ser)) →
      TargetEvent.tryFrom (UiInstruction.Compiled ci) =
        some (Except.ok (TargetEvent.PumpfunCreate v))) ∧
    (∀ ci : UiCompiledInstruction, ∀ pre : List Nat, ∀ v : CompleteEvent, pre.length = 8 →
      v.wf = true → bs58Decode ci.data = some (pre ++ (PUMPFUN_COMPLETE_EVENT ++ v.ser)) →
      TargetEvent.tryFrom (UiInstruction.Compiled ci) =
        some (Except.ok (TargetEvent.PumpfunComplete v))) ∧
    (∀ ci : UiCompiledInstruction, ∀ pre : List Nat, ∀ v : TradeEvent, pre.length = 8 →
      v.wf = true → bs58Decode ci.data = some (pre ++ (PUMPFUN_TRADE_EVENT ++ v.ser)) →
      TargetEvent.tryFrom (UiInstruction.Compiled ci) =
        some (Except.ok (if v.is_buy then TargetEvent.PumpfunBuy v
          else TargetEvent.PumpfunSell v))) ∧
    (∀ ci : UiCompiledInstruction, ∀ bytes : List Nat, bs58Decode ci.data = some bytes →
      16 < bytes.length →
      (bytes.drop 8).take 8 ≠ PUMPFUN_CREATE_EVENT →
      (bytes.drop 8).take 8 ≠ PUMPFUN_COMPLETE_EVENT →
      (bytes.drop 8).take 8 ≠ PUMPFUN_TRADE_EVENT →
      TargetEvent.tryFrom (UiInstruction.Compiled ci) = some (Except.error pumpfunUnionErr)) := by
  refine ⟨?_, ?_, ?_, ?_, ?_⟩
  · intro ci bytes hd hlen
    have hno : ∀ disc : List Nat, ¬ (16 < bytes.length ∧ (bytes.drop 8).take 8 = disc) :=
      fun disc hc => absurd hc.1 (by omega)
    simp [TargetEvent.tryFrom, hd, TargetEvent.tryFromBytes,
      createEvent_tryFromBytes_none_of bytes (hno _),
      completeEvent_tryFromBytes_none_of bytes (hno _),
      tradeEvent_tryFromBytes_none_of bytes (hno _)]
  · intro ci pre v hp hw hd
    simp [TargetEvent.tryFrom, hd, TargetEvent.tryFromBytes,
      createEvent_tryFromBytes_encode hp v hw]
  · intro ci pre v hp hw hd
    have hcr : CreateEvent.tryFromBytes (pre ++ (PUMPFUN_COMPLETE_EVENT ++ v.ser)) = none := by
      refine createEvent_tryFromBytes_none_of _ (fun hc => ?_)
      rw [slice8_16 hp (by decide)] at hc
      exact absurd hc.2 (by decide)
    simp [TargetEvent.tryFrom, hd, TargetEvent.tryFromBytes, hcr,
      completeEvent_tryFromBytes_encode hp v hw]
  · intro ci pre v hp hw hd
    have hcr : CreateEvent.tryFromBytes (pre ++ (PUMPFUN_TRADE_EVENT ++ v.ser)) = none := by
      refine createEvent_tryFromBytes_none_of _ (fun hc => ?_)
      rw [slice8_16 hp (by decide)] at hc
      exact absurd hc.2 (by decide)
    have hcm : CompleteEvent.tryFromBytes (pre ++ (PUMPFUN_TRADE_EVENT ++ v.ser)) = none := by
      refine completeEvent_tryFromBytes_none_of _ (fun hc => ?_)
      rw [slice8_16 hp (by decide)] at hc
      exact absurd hc.2 (by decide)
    simp [TargetEvent.tryFrom, hd, TargetEvent.tryFromBytes, hcr, hcm,
      tradeEvent_tryFromBytes_encode hp v hw]
    split
    · rfl
    · rfl
  · intro ci bytes hd hlen hc1 hc2 hc3
    simp [TargetEvent.tryFrom, hd, TargetEvent.tryFromBytes,
      createEvent_tryFromBytes_none_of bytes (fun hc => absurd hc.2 hc1),
      completeEvent_tryFromBytes_none_of bytes (fun hc => absurd hc.2 hc2),
      tradeEvent_tryFromBytes_none_of bytes (fun hc => absurd hc.2 hc3)]

set_option maxRecDepth 100000 in
/-- Witness for C4: a short buffer, a concrete Create, Complete, Trade-buy
and Trade-sell event buffer, and a 17-byte buffer with an unknown
discriminator, each presented as base58 text. -/
theorem pumpfun_event_decode_witness :
    TargetEvent.tryFrom (UiInstruction.Compiled ⟨""⟩) = some (Except.error pumpfunUnionErr) ∧
    TargetEvent.tryFrom (UiInstruction.Compiled
        ⟨"11111111airxhjFKjYxLo2sRyNJif3A3aMM4RRz3noStkHF2UqjSYKWPo7uExqyf3eXNmhFXhGb9fCfW1BLA3s3N9SyxcXjBS6dHgzKGgvpRGJK4Qj5LzwKDKLbtFR1YVkYtZCtE4Cz9KgV94YCBJNFpz3UcatchhPYkQ7"⟩) =
      some (Except.ok (TargetEvent.PumpfunCreate
        ⟨[], [], [], List.replicate 32 0, List.replicate 32 0, List.replicate 32 0⟩)) ∧
    TargetEvent.tryFrom (UiInstruction.Compiled
        ⟨"11111111JvNWJY7ztLgqenVaKixJpE2vuqh66ZawAum2ybMKixiLyL1tri2MrgcRZGhEWoyQkSbaPK8oWcbJCVZMpiMiqQqL2rGCqiZhffxkLVDzyQw6rbuN6DVAiqzvJfL827ad592uvDVyAZfGpj4nm2rP1hJbh"⟩) =
      some (Except.ok (TargetEvent.PumpfunComplete
        ⟨List.replicate 32 0, List.replicate 32 0, List.replicate 32 0, 0⟩)) ∧
    TargetEvent.tryFrom (UiInstruction.Compiled
        ⟨"111111112UkcjHW9PgDhFWxwSgutKqmb88wAhUEqFPhiqNBbQ3vgHMSdS56pzB3CgnvkMh4FbLDkhxACvoeBBJeREm2yS3hfsAZFCNA6K8nuybgkpGtN2csMcWApweePXoyuVBDE3ZJNk8LUy1NZFuFgGUtYU7s1doSz1ebkZPCcr61uVkw19sjDH"⟩) =
      some (Except.ok (TargetEvent.PumpfunBuy
        ⟨List.replicate 32 0, 0, 0, true, List.replicate 32 0, 0, 0, 0, 0, 0⟩)) ∧
    TargetEvent.tryFrom (UiInstruction.Compiled
        ⟨"111111112UkcjHW9PgDhFWxwSgutKqmb88wAhUEqFPhiqNBbQ3vgHMSdS56pzB3CgnvkMh4FbLDkhxACvoeBBJae5TNq9byaDwvDkVF2VMMTCZATJEgAUx3bYbsU98LyMHZYuXFYUtPMbbKZCPbVKPiw67Ap3bZE991rUskeoh4avrjBXBfedxzRM"⟩) =
      some (Except.ok (TargetEvent.PumpfunSell
        ⟨List.replicate 32 0, 0, 0, false, List.replicate 32 0, 0, 0, 0, 0, 0⟩)) ∧
    TargetEvent.tryFrom (UiInstruction.Compiled ⟨"11111111111111111"⟩) =
      some (Except.error pumpfunUnionErr) := by
  refine ⟨?_, ?_, ?_, ?_, ?_, ?_⟩
  · exact pumpfun_event_decode.1 ⟨""⟩ [] (by decide) (by decide)
  · exact pumpfun_event_decode.2.1 _ (List.replicate 8 0)
      ⟨[], [], [], List.replicate 32 0, List.replicate 32 0, List.replicate 32 0⟩
      (by decide) (by decide) (by decide)
  · exact pumpfun_event_decode.2.2.1 _ (List.replicate 8 0)
      ⟨List.replicate 32 0, List.replicate 32 0, List.replicate 32 0, 0⟩
      (by decide) (by decide) (by decide)
  · exact pumpfun_event_decode.2.2.2.1 _ (List.replicate 8 0)
      ⟨List.replicate 32 0, 0, 0, true, List.replicate 32 0, 0, 0, 0, 0, 0⟩
      (by decide) (by decide) (by decide)
  · exact pumpfun_event_decode.2.2.2.1 _ (List.replicate 8 0)
      ⟨List.replicate 32 0, 0, 0, false, List.replicate 32 0, 0, 0, 0, 0, 0⟩
      (by decide) (by decide) (by decide)
  · exact pumpfun_event_decode.2.2.2.2 _ (List.replicate 17 0) (by decide) (by decide)
      (by decide) (by decide) (by decide)

/-- C10: over valid-base58 data every pumpfun event decoder (and the union)
returns; over invalid-base58 data they panic (the unwrapped decode,
modelled as the outer `none`), while the AMM decoders — here
`SwapInstructionBaseIn::try_from` and the union `AmmInstruction::try_from`
— return an error result on the same input. -/
theorem pumpfun_panics_on_invalid_base58 :
    (∀ ci : UiCompiledInstruction, ∀ bytes : List Nat, bs58Decode ci.data = some bytes →
      CreateEvent.tryFromCompiledInstruction ci = some (CreateEvent.tryFromBytes bytes) ∧
      CompleteEvent.tryFromCompiledInstruction ci = some (CompleteEvent.tryFromBytes bytes) ∧
      TradeEvent.tryFromCompiledInstruction ci = some (TradeEvent.tryFromBytes bytes) ∧
      TargetEvent.tryFrom (UiInstruction.Compiled ci) = some (TargetEvent.tryFromBytes bytes)) ∧
    (∀ ci : UiCompiledInstruction, bs58Decode ci.data = none →
      CreateEvent.tryFromCompiledInstruction ci = none ∧
      CompleteEvent.tryFromCompiledInstruction ci = none ∧
      TradeEvent.tryFromCompiledInstruction ci = none ∧
      TargetEvent.tryFrom (UiInstruction.Compiled ci) = none ∧
      SwapInstructionBaseIn.tryFromCompiled ci = Except.error "invalid base58" ∧
      AmmInstruction.tryFrom (UiInstruction.Compiled ci) = Except.error ammUnionErr) := by
  constructor
  · intro ci bytes hd
    refine ⟨?_, ?_, ?_, ?_⟩ <;>
      simp [CreateEvent.tryFromCompiledInstruction, CompleteEvent.tryFromCompiledInstruction,
        TradeEvent.tryFromCompiledInstruction, TargetEvent.tryFrom, hd]
  · intro ci hd
    refine ⟨?_, ?_, ?_, ?_, ?_, ?_⟩ <;>
      simp [CreateEvent.tryFromCompiledInstruction, CompleteEvent.tryFromCompiledInstruction,
        TradeEvent.tryFromCompiledInstruction, TargetEvent.tryFrom,
        SwapInstructionBaseIn.tryFromCompiled, AmmInstruction.tryFrom, hd]

/-- Witness for C10: "6" is valid base58 (decoding to `[5]`); "0" is not in
the base58 alphabet, so the pumpfun decoders panic on it while the AMM
decoders return errors. -/
theorem pumpfun_panics_on_invalid_base58_witness :
    (CreateEvent.tryFromCompiledInstruction ⟨"6"⟩ = some (CreateEvent.tryFromBytes [5]) ∧
      CompleteEvent.tryFromCompiledInstruction ⟨"6"⟩ = some (CompleteEvent.tryFromBytes [5]) ∧
      TradeEvent.tryFromCompiledInstruction ⟨"6"⟩ = some (TradeEvent.tryFromBytes [5]) ∧
      TargetEvent.tryFrom (UiInstruction.Compiled ⟨"6"⟩) =
        some (TargetEvent.tryFromBytes [5])) ∧
    (CreateEvent.tryFromCompiledInstruction ⟨"0"⟩ = none ∧
      CompleteEvent.tryFromCompiledInstruction ⟨"0"⟩ = none ∧
      TradeEvent.tryFromCompiledInstruction ⟨"0"⟩ = none ∧
      TargetEvent.tryFrom (UiInstruction.Compiled ⟨"0"⟩) = none ∧
      SwapInstructionBaseIn.tryFromCompiled ⟨"0"⟩ = Except.error "invalid base58" ∧
      AmmInstruction.tryFrom (UiInstruction.Compiled ⟨"0"⟩) = Except.error ammUnionErr) :=
  ⟨pumpfun_panics_on_invalid_base58.1 ⟨"6"⟩ [5] (by decide),
   pumpfun_panics_on_invalid_base58.2 ⟨"0"⟩ (by decide)⟩

/-! ## Engine.allow_sniper (src/engine.rs)

The conversion of the raw gRPC transaction into its encoded form (an
external library call) is the embedding boundary: `allowSniper` takes the
resulting metadata — optionally present, with the inner-instruction list
wrapped in `OptionSerializer` — and scans every inner instruction of every
top-level instruction in document order.  The source applies the `?`
operator to each `AmmInstruction::try_from` result, so a decode failure is
returned from `allow_sniper` immediately. -/

inductive OptionSerializer (α : Type)
  | someVal (v : α)
  | noneVal
  | skip

/-- The five variants on which `allow_sniper` returns success. -/
def isSniperTarget : AmmInstruction → Bool
  | AmmInstruction.SwapBaseIn _ => true
  | AmmInstruction.SwapBaseOut _ => true
  | AmmInstruction.SimulateInfo _ => true
  | AmmInstruction.Deposit _ => true
  | AmmInstruction.Withdraw _ => true
  | _ => false

/-- The inner loop over one top-level instruction's inner instructions:
`Ok true` models the early `return Ok(())`, `Ok false` falling through,
and `Error` the `?` on a failed decode. -/
def allowSniperScanIxs : List UiInstruction → Except String Bool
  | [] => Except.ok false
  | ix :: rest =>
    match AmmInstruction.tryFrom ix with
    | Except.error e => Except.error e
    | Except.ok ins =>
      if isSniperTarget ins then Except.ok true
      else allowSniperScanIxs rest

/-- The outer loop over the per-top-level-instruction groups. -/
def allowSniperScanGroups : List (List UiInstruction) → Except String Bool
  | [] => Except.ok false
  | g :: rest =>
    match allowSniperScanIxs g with
    | Except.error e => Except.error e
    | Except.ok true => Except.ok true
    | Except.ok false => allowSniperScanGroups rest

/-- `Engine::allow_sniper`: absent metadata or an absent/skipped
inner-instruction list, or a completed scan with no match, yield
"Unexpected error"; a decode failure inside the scan is propagated. -/
def allowSniper (meta : Option (OptionSerializer (List (List UiInstruction)))) :
    Except String Unit :=
  match meta with
  | some (OptionSerializer.someVal ixs) =>
    match allowSniperScanGroups ixs with
    | Except.error e => Except.error e
    | Except.ok true => Except.ok ()
    | Except.ok false => Except.error "Unexpected error"
  | _ => Except.error "Unexpected error"

/-- An inner instruction that decodes to a variant outside the five acted-on
kinds (the only kind the scan skips). -/
def decodesNonTarget (ix : UiInstruction) : Bool :=
  match AmmInstruction.tryFrom ix with
  | Except.ok w => ! isSniperTarget w
  | Except.error _ => false

theorem scanIxs_all_nontarget (g : List UiInstruction)
    (h : ∀ i ∈ g, decodesNonTarget i = true) :
    allowSniperScanIxs g = Except.ok false := by
  induction g with
  | nil => rfl
  | cons ix rest ih =>
    have hix := h ix (List.mem_cons_self ix rest)
    unfold decodesNonTarget at hix
    cases htf : AmmInstruction.tryFrom ix with
    | error e => rw [htf] at hix; exact absurd hix (by simp)
    | ok w =>
      rw [htf] at hix
      simp only [Bool.not_eq_true'] at hix
      unfold allowSniperScanIxs
      rw [htf]
      simp only [hix, if_false]
      exact ih (fun i hi => h i (List.mem_cons_of_mem ix hi))

theorem scanIxs_error_at (pre : List UiInstruction) (ix : UiInstruction)
    (rest : List UiInstruction) (e : String)
    (h : ∀ i ∈ pre, decodesNonTarget i = true)
    (he : AmmInstruction.tryFrom ix = Except.error e) :
    allowSniperScanIxs (pre ++ ix :: rest) = Except.error e := by
  induction pre with
  | nil =>
    rw [List.nil_append]
    simp only [allowSniperScanIxs]
    rw [he]
  | cons p ps ih =>
    have hp := h p (List.mem_cons_self p ps)
    unfold decodesNonTarget at hp
    cases htf : AmmInstruction.tryFrom p with
    | error e2 => rw [htf] at hp; exact absurd hp (by simp)
    | ok w =>
      rw [htf] at hp
      simp only [Bool.not_eq_true'] at hp
      rw [List.cons_append]
      unfold allowSniperScanIxs
      rw [htf]
      simp only [hp, if_false]
      exact ih (fun i hi => h i (List.mem_cons_of_mem p hi))

theorem scanIxs_target_at (pre : List UiInstruction) (ix : UiInstruction)
    (rest : List UiInstruction) (v : AmmInstruction)
    (h : ∀ i ∈ pre, decodesNonTarget i = true)
    (hv : AmmInstruction.tryFrom ix = Except.ok v) (ht : isSniperTarget v = true) :
    allowSniperScanIxs (pre ++ ix :: rest) = Except.ok true := by
  induction pre with
  | nil =>
    rw [List.nil_append]
    simp only [allowSniperScanIxs]
    rw [hv]
    simp [ht]
  | cons p ps ih =>
    have hp := h p (List.mem_cons_self p ps)
    unfold decodesNonTarget at hp
    cases htf : AmmInstruction.tryFrom p with
    | error e2 => rw [htf] at hp; exact absurd hp (by simp)
    | ok w =>
      rw [htf] at hp
      simp only [Bool.not_eq_true'] at hp
      rw [List.cons_append]
      unfold allowSniperScanIxs
      rw [htf]
      simp only [hp, if_false]
      exact ih (fun i hi => h i (List.mem_cons_of_mem p hi))

theorem scanGroups_all_nontarget (gs : List (List UiInstruction))
    (h : ∀ g ∈ gs, ∀ i ∈ g, decodesNonTarget i = true) :
    allowSniperScanGroups gs = Except.ok false := by
  induction gs with
  | nil => rfl
  | cons g rest ih =>
    unfold allowSniperScanGroups
    rw [scanIxs_all_nontarget g (h g (List.mem_cons_self g rest))]
    exact ih (fun g2 hg2 => h g2 (List.mem_cons_of_mem g hg2))

/-- Counterexample to C2 as stated: the first inner instruction (opcode
200, undecodable) makes `allow_sniper` return the decode failure even
though a later inner instruction of the same transaction is still
undecoded — and would in fact decode to `SwapBaseIn`.  Evaluation does not
continue; the failure is not absorbed. -/
theorem allow_sniper_decode_failure_aborts :
    allowSniper (some (OptionSerializer.someVal
      [[UiInstruction.Compiled ⟨"4T"⟩, UiInstruction.Compiled ⟨"5udcSuuaAw521V35Xj8kGXq"⟩]])) =
      Except.error ammUnionErr ∧
    AmmInstruction.tryFrom (UiInstruction.Compiled ⟨"5udcSuuaAw521V35Xj8kGXq"⟩) =
      Except.ok (AmmInstruction.SwapBaseIn ⟨1, 2⟩) := by
  constructor
  · rfl
  · rfl

/-- C2 amended: an inner instruction that decodes to a variant outside the
five acted-on kinds is skipped and the scan continues; but an inner
instruction the AMM decoder fails to recognize makes `allow_sniper` return
that decode failure immediately (the `?` operator), abandoning all later
inner instructions. -/
theorem allow_sniper_error_propagation :
    (∀ ix : UiInstruction, ∀ rest : List UiInstruction, ∀ w : AmmInstruction,
      AmmInstruction.tryFrom ix = Except.ok w → isSniperTarget w = false →
      allowSniperScanIxs (ix :: rest) = allowSniperScanIxs rest) ∧
    (∀ gs1 : List (List UiInstruction), ∀ pre : List UiInstruction, ∀ ix : UiInstruction,
      ∀ rest : List UiInstruction, ∀ gs2 : List (List UiInstruction), ∀ e : String,
      (∀ g ∈ gs1, ∀ i ∈ g, decodesNonTarget i = true) →
      (∀ i ∈ pre, decodesNonTarget i = true) →
      AmmInstruction.tryFrom ix = Except.error e →
      allowSniper (some (OptionSerializer.someVal (gs1 ++ (pre ++ ix :: rest) :: gs2))) =
        Except.error e) := by
  constructor
  · intro ix rest w hw ht
    simp only [allowSniperScanIxs]
    rw [hw]
    simp [ht]
  · intro gs1 pre ix rest gs2 e hgs1 hpre he
    have hscan : allowSniperScanGroups (gs1 ++ (pre ++ ix :: rest) :: gs2) =
        Except.error e := by
      induction gs1 with
      | nil =>
        rw [List.nil_append]
        simp only [allowSniperScanGroups]
        rw [scanIxs_error_at pre ix rest e hpre he]
      | cons g gs ih =>
        rw [List.cons_append]
        simp only [allowSniperScanGroups]
        rw [scanIxs_all_nontarget g (hgs1 g (List.mem_cons_self g gs))]
        exact ih (fun g2 hg2 => hgs1 g2 (List.mem_cons_of_mem g hg2))
    simp only [allowSniper]
    rw [hscan]

/-- Witness for C2 (amended): opcode 7 (`WithdrawPnl`, recognized but not
acted on) is skipped; the undecodable opcode-200 instruction after it
aborts the scan with the union decode error. -/
theorem allow_sniper_error_propagation_witness :
    allowSniperScanIxs [UiInstruction.Compiled ⟨"8"⟩] = allowSniperScanIxs [] ∧
    allowSniper (some (OptionSerializer.someVal
      [[UiInstruction.Compiled ⟨"8"⟩],
       [UiInstruction.Compiled ⟨"8"⟩, UiInstruction.Compiled ⟨"4T"⟩,
        UiInstruction.Compiled ⟨"5udcSuuaAw521V35Xj8kGXq"⟩], []])) =
      Except.error ammUnionErr := by
  constructor
  · exact allow_sniper_error_propagation.1 (UiInstruction.Compiled ⟨"8"⟩) []
      AmmInstruction.WithdrawPnl (by rfl) (by rfl)
  · exact allow_sniper_error_propagation.2 [[UiInstruction.Compiled ⟨"8"⟩]]
      [UiInstruction.Compiled ⟨"8"⟩] (UiInstruction.Compiled ⟨"4T"⟩)
      [UiInstruction.Compiled ⟨"5udcSuuaAw521V35Xj8kGXq"⟩] [[]] ammUnionErr
      (by decide) (by decide) (by rfl)

/-- Counterexample to C3 as stated: a transaction with one inner
instruction and zero decodable inner instructions returns the decode
failure "failed to convert to target AmmInstruction", not the claimed
"Unexpected error". -/
theorem allow_sniper_zero_decodable_error :
    allowSniper (some (OptionSerializer.someVal [[UiInstruction.Compiled ⟨"4T"⟩]])) =
      Except.error ammUnionErr ∧ ammUnionErr ≠ "Unexpected error" := by
  constructor
  · rfl
  · decide

/-- C3 amended: `allow_sniper` returns success at the first inner
instruction (in document order across all top-level instructions) that
decodes to one of the five acted-on kinds, regardless of everything after
it, provided every earlier inner instruction decodes to a non-acted-on
variant; a transaction whose inner instructions all decode with no match,
or whose metadata carries no inner-instruction list, returns "Unexpected
error"; but an undecodable earlier instruction instead surfaces the decode
error (see the counterexample). -/
theorem allow_sniper_first_match :
    (∀ gs1 : List (List UiInstruction), ∀ pre : List UiInstruction, ∀ ix : UiInstruction,
      ∀ v : AmmInstruction, ∀ rest : List UiInstruction, ∀ gs2 : List (List UiInstruction),
      (∀ g ∈ gs1, ∀ i ∈ g, decodesNonTarget i = true) →
      (∀ i ∈ pre, decodesNonTarget i = true) →
      AmmInstruction.tryFrom ix = Except.ok v → isSniperTarget v = true →
      allowSniper (some (OptionSerializer.someVal (gs1 ++ (pre ++ ix :: rest) :: gs2))) =
        Except.ok ()) ∧
    (∀ gs : List (List UiInstruction),
      (∀ g ∈ gs, ∀ i ∈ g, decodesNonTarget i = true) →
      allowSniper (some (OptionSerializer.someVal gs)) = Except.error "Unexpected error") ∧
    (∀ m : Option (OptionSerializer (List (List UiInstruction))),
      (∀ ixs, m ≠ some (OptionSerializer.someVal ixs)) →
      allowSniper m = Except.error "Unexpected error") := by
  refine ⟨?_, ?_, ?_⟩
  · intro gs1 pre ix v rest gs2 hgs1 hpre hv ht
    have hscan : allowSniperScanGroups (gs1 ++ (pre ++ ix :: rest) :: gs2) =
        Except.ok true := by
      induction gs1 with
      | nil =>
        rw [List.nil_append]
        simp only [allowSniperScanGroups]
        rw [scanIxs_target_at pre ix rest v hpre hv ht]
      | cons g gs ih =>
        rw [List.cons_append]
        simp only [allowSniperScanGroups]
        rw [scanIxs_all_nontarget g (hgs1 g (List.mem_cons_self g gs))]
        exact ih (fun g2 hg2 => hgs1 g2 (List.mem_cons_of_mem g hg2))
    simp only [allowSniper]
    rw [hscan]
  · intro gs hgs
    simp only [allowSniper]
    rw [scanGroups_all_nontarget gs hgs]
  · intro m hm
    match m with
    | none => rfl
    | some (OptionSerializer.someVal ixs) => exact absurd rfl (hm ixs)
    | some OptionSerializer.noneVal => rfl
    | some OptionSerializer.skip => rfl

/-- Witness for C3 (amended): a `SwapBaseIn` inner instruction preceded by
a decodable non-target instruction succeeds; all-non-target and absent
metadata return "Unexpected error". -/
theorem allow_sniper_first_match_witness :
    allowSniper (some (OptionSerializer.someVal
      [[UiInstruction.Compiled ⟨"8"⟩, UiInstruction.Compiled ⟨"5udcSuuaAw521V35Xj8kGXq"⟩,
        UiInstruction.Compiled ⟨"4T"⟩]])) = Except.ok () ∧
    allowSniper (some (OptionSerializer.someVal [[UiInstruction.Compiled ⟨"8"⟩]])) =
      Except.error "Unexpected error" ∧
    allowSniper none = Except.error "Unexpected error" := by
  refine ⟨?_, ?_, ?_⟩
  · exact allow_sniper_first_match.1 [] [UiInstruction.Compiled ⟨"8"⟩]
      (UiInstruction.Compiled ⟨"5udcSuuaAw521V35Xj8kGXq"⟩)
      (AmmInstruction.SwapBaseIn ⟨1, 2⟩) [UiInstruction.Compiled ⟨"4T"⟩] []
      (by decide) (by decide) (by rfl) (by rfl)
  · exact allow_sniper_first_match.2.1 [[UiInstruction.Compiled ⟨"8"⟩]] (by decide)
  · exact allow_sniper_first_match.2.2 none (fun ixs h => Option.noConfusion h)

/-! ## Bundle status polling (src/jito.rs)

The relay is modelled as a scripted sequence of responses indexed by the
attempt number (1..30); the `await?` on each query is assumed to succeed —
the scripts provide the parsed JSON shape the source inspects. -/

/-- A minimal JSON value, enough for the status record's `err` field and
serde_json's `value["Ok"]` indexing (missing key or non-object yields
null). -/
inductive JVal
  | null
  | str (s : String)
  | num (n : Int)
  | obj (fields : List (String × JVal))

def JVal.index (j : JVal) (k : String) : JVal :=
  match j with
  | JVal.obj fields => (fields.lookup k).getD JVal.null
  | _ => JVal.null

def JVal.isNull : JVal → Bool
  | JVal.null => true
  | _ => false

/-- The `BundleStatus` record of src/jito.rs, as `get_bundle_status`
extracts it: `confirmation_status` is `none` when the field is missing or
not a string, `err` is the raw JSON value, `transactions` the id list. -/
structure BundleStatus where
  confirmation_status : Option String
  err : Option JVal
  transactions : Option (List String)

structure FinalValue where
  value : Option (List BundleStatus)

structure FinalResp where
  result : Option FinalValue

/-- `get_bundle_status`: `result.value[0]`, or the parse failure that the
`?` in `check_final_bundle_status` propagates. -/
def getBundleStatus (r : FinalResp) : Except String BundleStatus :=
  match r.result with
  | none => Except.error "Failed to parse bundle status"
  | some fv =>
    match fv.value with
    | none => Except.error "Failed to parse bundle status"
    | some statuses =>
      match statuses.head? with
      | none => Except.error "Failed to parse bundle status"
      | some st => Except.ok st

/-- `check_transaction_error`: an `err` whose `Ok` sub-field is not null is
an on-chain execution failure. -/
def checkTransactionError (st : BundleStatus) : Except String Unit :=
  match st.err with
  | some e =>
    if (JVal.index e "Ok").isNull then Except.ok ()
    else Except.error "Transaction encountered an error"
  | none => Except.ok ()

/-- `print_transaction_url`: the solscan URL of the first included
transaction id, when one exists (`none` models the fallback prints). -/
def printTransactionUrl (st : BundleStatus) : Option String :=
  match st.transactions with
  | some (txid :: _) => some (String.append "https://solscan.io/tx/" txid)
  | _ => none

/-- The phase-2 loop of `check_final_bundle_status`, by remaining attempts:
with `fuel + 1` attempts remaining the current attempt number is
`30 - fuel`.  Returns the reported URL on success. -/
def checkFinalLoop (script : Nat → FinalResp) : Nat → Except String (Option String)
  | 0 => Except.error "Failed to get finalized status after 30 attempts"
  | fuel + 1 =>
    match getBundleStatus (script (30 - fuel)) with
    | Except.error e => Except.error e
    | Except.ok st =>
      match st.confirmation_status with
      | some s =>
        if s = "confirmed" then
          match checkTransactionError st with
          | Except.error e => Except.error e
          | Except.ok _ => checkFinalLoop script fuel
        else if s = "finalized" then
          match checkTransactionError st with
          | Except.error e => Except.error e
          | Except.ok _ => Except.ok (printTransactionUrl st)
        else checkFinalLoop script fuel
      | none => checkFinalLoop script fuel

def checkFinalBundleStatus (script : Nat → FinalResp) : Except String (Option String) :=
  checkFinalLoop script 30

/-- One record of the in-flight statuses array: `status` is `none` when the
field is missing, `some none` when it is not a string. -/
structure InflightStatusRec where
  status : Option (Option String)

structure InflightValue where
  value : Option (List InflightStatusRec)

structure InflightResp where
  result : Option InflightValue
  error : Option String

/-- The `result.value[0].status` chain of the phase-1 loop. -/
def inflightStatus (r : InflightResp) : Option (Option String) :=
  match r.result with
  | some res =>
    match res.value with
    | some statuses =>
      match statuses.head? with
      | some b0 => b0.status
      | none => none
    | none => none
  | none => none

/-- Whether an in-flight response advances to phase 2: only the exact
string status "Landed" does; `"Pending"`, any other string, a missing or
non-string field, a missing result/value, and a top-level error are all
logged and polling continues. -/
def inflightLanded (r : InflightResp) : Bool :=
  inflightStatus r == some (some "Landed")

/-- The phase-1 loop of `jito_request`, by remaining attempts, also
counting the in-flight status queries it issues.  On "Landed" it returns
`check_final_bundle_status`'s result. -/
def jitoPollLoop (script : Nat → InflightResp) (finalScript : Nat → FinalResp) :
    Nat → Except String (Option String) × Nat
  | 0 => (Except.error "Failed to confirm bundle status after 30 attempts", 0)
  | fuel + 1 =>
    if inflightLanded (script (30 - fuel)) then (checkFinalBundleStatus finalScript, 1)
    else
      ((jitoPollLoop script finalScript fuel).1, (jitoPollLoop script finalScript fuel).2 + 1)

/-- The polling portion of `jito_request` (after a successful submission):
30 in-flight attempts, then phase 2 on "Landed". -/
def jitoRequestPoll (script : Nat → InflightResp) (finalScript : Nat → FinalResp) :
    Except String (Option String) × Nat :=
  jitoPollLoop script finalScript 30

theorem jitoPollLoop_step_notLanded (script : Nat → InflightResp)
    (finalScript : Nat → FinalResp) (fuel : Nat)
    (h : inflightLanded (script (30 - fuel)) = false) :
    jitoPollLoop script finalScript (fuel + 1) =
      ((jitoPollLoop script finalScript fuel).1,
        (jitoPollLoop script finalScript fuel).2 + 1) := by
  simp only [jitoPollLoop]
  rw [h]
  simp

theorem jitoPollLoop_step_landed (script : Nat → InflightResp)
    (finalScript : Nat → FinalResp) (fuel : Nat)
    (h : inflightLanded (script (30 - fuel)) = true) :
    jitoPollLoop script finalScript (fuel + 1) = (checkFinalBundleStatus finalScript, 1) := by
  simp only [jitoPollLoop]
  rw [h]
  simp

theorem inflightLanded_eq_false {r : InflightResp}
    (h : inflightStatus r ≠ some (some "Landed")) : inflightLanded r = false := by
  unfold inflightLanded
  exact beq_eq_false_iff_ne.mpr h

theorem jitoPollLoop_never_landed (script : Nat → InflightResp)
    (finalScript : Nat → FinalResp)
    (h : ∀ n, 1 ≤ n → n ≤ 30 → inflightStatus (script n) ≠ some (some "Landed")) :
    ∀ fuel, fuel ≤ 30 → jitoPollLoop script finalScript fuel =
      (Except.error "Failed to confirm bundle status after 30 attempts", fuel) := by
  intro fuel
  induction fuel with
  | zero => intro _; rfl
  | succ f ih =>
    intro hf
    have hl : inflightLanded (script (30 - f)) = false :=
      inflightLanded_eq_false (h (30 - f) (by omega) (by omega))
    rw [jitoPollLoop_step_notLanded script finalScript f hl, ih (by omega)]

/-- C6: phase-1 polling with a scripted relay — the status sequence
Pending, Pending, Landed issues exactly 3 in-flight queries and then hands
over to phase-2 polling; a script that never reports "Landed" within the
30 attempts returns the "Failed to confirm bundle status after 30
attempts" failure after exactly 30 queries, issuing no further ones. -/
theorem jito_inflight_polling :
    (∀ script : Nat → InflightResp, ∀ finalScript : Nat → FinalResp,
      inflightStatus (script 1) = some (some "Pending") →
      inflightStatus (script 2) = some (some "Pending") →
      inflightStatus (script 3) = some (some "Landed") →
      jitoRequestPoll script finalScript = (checkFinalBundleStatus finalScript, 3)) ∧
    (∀ script : Nat → InflightResp, ∀ finalScript : Nat → FinalResp,
      (∀ n, 1 ≤ n → n ≤ 30 → inflightStatus (script n) ≠ some (some "Landed")) →
      jitoRequestPoll script finalScript =
        (Except.error "Failed to confirm bundle status after 30 attempts", 30)) := by
  constructor
  · intro script finalScript h1 h2 h3
    have l1 : inflightLanded (script 1) = false := by
      unfold inflightLanded
      rw [h1]
      rfl
    have l2 : inflightLanded (script 2) = false := by
      unfold inflightLanded
      rw [h2]
      rfl
    have l3 : inflightLanded (script 3) = true := by
      unfold inflightLanded
      rw [h3]
      rfl
    show jitoPollLoop script finalScript 30 = _
    have e1 : (30 : Nat) = 29 + 1 := by norm_num
    rw [e1, jitoPollLoop_step_notLanded script finalScript 29 l1]
    have e2 : (29 : Nat) = 28 + 1 := by norm_num
    rw [e2, jitoPollLoop_step_notLanded script finalScript 28 l2]
    have e3 : (28 : Nat) = 27 + 1 := by norm_num
    rw [e3, jitoPollLoop_step_landed script finalScript 27 l3]
  · intro script finalScript h
    exact jitoPollLoop_never_landed script finalScript h 30 (by omega)

def pendingResp : InflightResp := ⟨some ⟨some [⟨some (some "Pending")⟩]⟩, none⟩

def landedResp : InflightResp := ⟨some ⟨some [⟨some (some "Landed")⟩]⟩, none⟩

/-- A scripted relay answering Pending, Pending, Landed, then Pending. -/
def scriptPPL : Nat → InflightResp := fun n => if n = 3 then landedResp else pendingResp

/-- A scripted relay that never reports Landed. -/
def scriptAllPending : Nat → InflightResp := fun _ => pendingResp

def confirmedStatus : BundleStatus := ⟨some "confirmed", none, none⟩

def finalizedStatus : BundleStatus := ⟨some "finalized", none, some ["txid1", "txid2"]⟩

/-- A scripted phase-2 relay: confirmed on attempt 1, finalized afterwards. -/
def finalScriptCF : Nat → FinalResp :=
  fun n => if n ≤ 1 then ⟨some ⟨some [confirmedStatus]⟩⟩ else ⟨some ⟨some [finalizedStatus]⟩⟩

/-- Witness for C6: the Pending, Pending, Landed script issues exactly 3
queries; the all-Pending script exhausts all 30. -/
theorem jito_inflight_polling_witness :
    jitoRequestPoll scriptPPL finalScriptCF = (checkFinalBundleStatus finalScriptCF, 3) ∧
    jitoRequestPoll scriptAllPending finalScriptCF =
      (Except.error "Failed to confirm bundle status after 30 attempts", 30) := by
  constructor
  · exact jito_inflight_polling.1 scriptPPL finalScriptCF (by rfl) (by rfl) (by rfl)
  · exact jito_inflight_polling.2 scriptAllPending finalScriptCF
      (fun n _ _ => (by decide : inflightStatus pendingResp ≠ some (some "Landed")))

/-- C7: phase-2 polling — a parsed status "confirmed" with no execution
error continues polling rather than returning; a parsed status "finalized"
with no execution error succeeds immediately, reporting the first included
transaction id as a solscan URL; any other or unparsable status continues
polling with no early exit. -/
theorem jito_final_status_polling :
    (∀ script : Nat → FinalResp, ∀ fuel : Nat, ∀ st : BundleStatus,
      getBundleStatus (script (30 - fuel)) = Except.ok st →
      st.confirmation_status = some "confirmed" → checkTransactionError st = Except.ok () →
      checkFinalLoop script (fuel + 1) = checkFinalLoop script fuel) ∧
    (∀ script : Nat → FinalResp, ∀ fuel : Nat, ∀ st : BundleStatus, ∀ txid : String,
      ∀ rest : List String,
      getBundleStatus (script (30 - fuel)) = Except.ok st →
      st.confirmation_status = some "finalized" → checkTransactionError st = Except.ok () →
      st.transactions = some (txid :: rest) →
      checkFinalLoop script (fuel + 1) =
        Except.ok (some (String.append "https://solscan.io/tx/" txid))) ∧
    (∀ script : Nat → FinalResp, ∀ fuel : Nat, ∀ st : BundleStatus,
      getBundleStatus (script (30 - fuel)) = Except.ok st →
      (st.confirmation_status = none ∨ ∃ s, st.confirmation_status = some s ∧
        s ≠ "confirmed" ∧ s ≠ "finalized") →
      checkFinalLoop script (fuel + 1) = checkFinalLoop script fuel) := by
  refine ⟨?_, ?_, ?_⟩
  · intro script fuel st hget hconf hchk
    simp only [checkFinalLoop]
    rw [hget]
    simp [hconf, hchk]
  · intro script fuel st txid rest hget hconf hchk htx
    simp only [checkFinalLoop]
    rw [hget]
    simp [hconf, hchk, printTransactionUrl, htx]
  · intro script fuel st hget hother
    simp only [checkFinalLoop]
    rw [hget]
    cases hother with
    | inl hnone => simp [hnone]
    | inr hs =>
      obtain ⟨s, hs, hnc, hnf⟩ := hs
      simp [hs, hnc, hnf]

def processedStatus : BundleStatus := ⟨some "processed", none, none⟩

def finalScriptProcessed : Nat → FinalResp := fun _ => ⟨some ⟨some [processedStatus]⟩⟩

/-- Witness for C7: the confirmed-then-finalized script continues past
attempt 1 and succeeds at attempt 2 with the first transaction id's URL;
an unrecognized status string continues polling. -/
theorem jito_final_status_polling_witness :
    checkFinalLoop finalScriptCF 30 = checkFinalLoop finalScriptCF 29 ∧
    checkFinalLoop finalScriptCF 29 =
      Except.ok (some (String.append "https://solscan.io/tx/" "txid1")) ∧
    checkFinalLoop finalScriptProcessed 30 = checkFinalLoop finalScriptProcessed 29 := by
  refine ⟨?_, ?_, ?_⟩
  · exact jito_final_status_polling.1 finalScriptCF 29 confirmedStatus
      (by rfl) (by rfl) (by rfl)
  · exact jito_final_status_polling.2.1 finalScriptCF 28 finalizedStatus "txid1" ["txid2"]
      (by rfl) (by rfl) (by rfl) (by rfl)
  · refine jito_final_status_polling.2.2 finalScriptProcessed 29 processedStatus (by rfl) ?_
    exact Or.inr ⟨"processed", rfl, by decide, by decide⟩

/-- C8: a bundle status whose `err` is present with a non-null `Ok`
sub-field makes the confirmation check fail with "Transaction encountered
an error" already at the "confirmed" stage, with no further polling toward
"finalized"; a status whose `err` is absent, or present with a null `Ok`
sub-field, passes the check. -/
theorem jito_transaction_error_check :
    (∀ st : BundleStatus, ∀ e : JVal, st.err = some e →
      (JVal.index e "Ok").isNull = false →
      checkTransactionError st = Except.error "Transaction encountered an error" ∧
      (∀ script : Nat → FinalResp, ∀ fuel : Nat,
        getBundleStatus (script (30 - fuel)) = Except.ok st →
        st.confirmation_status = some "confirmed" →
        checkFinalLoop script (fuel + 1) =
          Except.error "Transaction encountered an error")) ∧
    (∀ st : BundleStatus,
      (st.err = none ∨ ∃ e, st.err = some e ∧ (JVal.index e "Ok").isNull = true) →
      checkTransactionError st = Except.ok ()) := by
  constructor
  · intro st e he hok
    have hchk : checkTransactionError st = Except.error "Transaction encountered an error" := by
      simp only [checkTransactionError]
      rw [he]
      simp [hok]
    refine ⟨hchk, fun script fuel hget hconf => ?_⟩
    simp only [checkFinalLoop]
    rw [hget]
    simp [hconf, hchk]
  · intro st h
    cases h with
    | inl hnone =>
      simp only [checkTransactionError]
      rw [hnone]
    | inr hs =>
      obtain ⟨e, he, hok⟩ := hs
      simp only [checkTransactionError]
      rw [he]
      simp [hok]

def errStatus : BundleStatus :=
  ⟨some "confirmed", some (JVal.obj [("Ok", JVal.str "InstructionError")]), none⟩

def finalScriptErr : Nat → FinalResp := fun _ => ⟨some ⟨some [errStatus]⟩⟩

/-- Witness for C8: a concrete non-null `err.Ok` fails the check and ends
phase-2 polling at the confirmed stage; an absent `err` and a null
`err.Ok` both pass. -/
theorem jito_transaction_error_check_witness :
    checkTransactionError errStatus = Except.error "Transaction encountered an error" ∧
    checkFinalLoop finalScriptErr 30 = Except.error "Transaction encountered an error" ∧
    checkTransactionError confirmedStatus = Except.ok () ∧
    checkTransactionError ⟨some "confirmed", some (JVal.obj [("Ok", JVal.null)]), none⟩ =
      Except.ok () := by
  refine ⟨?_, ?_, ?_, ?_⟩
  · exact (jito_transaction_error_check.1 errStatus
      (JVal.obj [("Ok", JVal.str "InstructionError")]) (by rfl) (by rfl)).1
  · exact (jito_transaction_error_check.1 errStatus
      (JVal.obj [("Ok", JVal.str "InstructionError")]) (by rfl) (by rfl)).2
      finalScriptErr 29 (by rfl) (by rfl)
  · exact jito_transaction_error_check.2 confirmedStatus (Or.inl rfl)
  · exact jito_transaction_error_check.2 _ (Or.inr ⟨JVal.obj [("Ok", JVal.null)], rfl, rfl⟩)

/-! ## Keypair path resolution (src/utils.rs with src/constants.rs) -/

/-- The process environment, a partial map from variable names to values. -/
abbrev EnvMap : Type := String → Option String

/-- Path resolution of `utils::read_keypair_file`, as the source performs
it.  `constants::KEYPAIR_FILE` is `Lazy::new(|| env::var("KEYPAIR_FILE").unwrap())`
— the value of the variable `KEYPAIR_FILE`, a panic (modelled `none`) when
unset — and utils.rs then calls `env::var(constants::KEYPAIR_FILE.as_str())`,
looking up a second environment variable whose name is that value, falling
back to `~/.config/solana/id.json` when the second lookup fails. -/
def resolveKeypairPath (explicitPath : Option String) (env : EnvMap) (home : String) :
    Option String :=
  match explicitPath with
  | some p => some p
  | none =>
    match env "KEYPAIR_FILE" with
    | none => none
    | some v =>
      match env v with
      | some file => some file
      | none => some (String.append home "/.config/solana/id.json")

/-- The resolution order the spec describes (the claimed behavior, for
comparison): (1) the explicit path when supplied; (2) otherwise the value
of the configured key-file environment variable when set; (3) otherwise
`~/.config/solana/id.json`. -/
def specResolveKeypairPath (explicitPath : Option String) (env : EnvMap) (home : String) :
    Option String :=
  match explicitPath with
  | some p => some p
  | none =>
    match env "KEYPAIR_FILE" with
    | some v => some v
    | none => some (String.append home "/.config/solana/id.json")

/-- An environment where `KEYPAIR_FILE` is set to a keypair path and no
variable named after that path exists. -/
def envKF : EnvMap := fun name => if name = "KEYPAIR_FILE" then some "/tmp/mykey.json" else none

def envEmpty : EnvMap := fun _ => none

/-- C9 (code-bug evidence): with no explicit path and
`KEYPAIR_FILE=/tmp/mykey.json`, the code resolves the default path — not
the configured value the claim requires; with `KEYPAIR_FILE` unset it
panics (models as `none`) instead of resolving the default path; only the
explicit-path case agrees with the claim. -/
theorem keypair_path_resolution_divergence :
    resolveKeypairPath none envKF "/home/user" =
      some "/home/user/.config/solana/id.json" ∧
    specResolveKeypairPath none envKF "/home/user" = some "/tmp/mykey.json" ∧
    resolveKeypairPath none envEmpty "/home/user" = none ∧
    specResolveKeypairPath none envEmpty "/home/user" =
      some "/home/user/.config/solana/id.json" ∧
    resolveKeypairPath (some "/tmp/explicit.json") envKF "/home/user" =
      some "/tmp/explicit.json" ∧
    specResolveKeypairPath (some "/tmp/explicit.json") envKF "/home/user" =
      some "/tmp/explicit.json" := by
  refine ⟨?_, ?_, ?_, ?_, ?_, ?_⟩ <;> rfl

end SolanaMev
